import Mathlib

/-!
lion / prophet: leadership flag, configuration defaults, distinct score, the
leader-balance scheduler, the leadership driver loop and the Elector contract.

A shallow embedding of `cfg.go`, `prophet_leader.go` and
`scheduler_balancer_leader.go`.

Conventions of the embedding

* Go `int`, `int64` and `time.Duration` (nanoseconds) are `Int`; `uint64` is `Nat`.
  No arithmetic of the embedded functions can leave the machine range on the
  inputs considered, so no wrap-around is modelled.
* Go `float64`: the score arithmetic of `scheduleTransferLeader` and of
  `getDistinctScore` is embedded twice. The definitions in the namespace `IEEE`
  carry it out in `float64` (type `F64`: rounding to nearest, ties to even, with
  a 53-bit significand, gradual underflow, overflow to the infinities, NaN);
  every statement that depends on the computed average, distances or score is
  made about them. The definitions outside `IEEE` use exact rationals and serve
  the statements that do not depend on rounding: the control flow of `Schedule`,
  nil safety, the empty cluster, and the termwise comparison of two scores. A
  leader score is a finite value, held as the rational it denotes.
* A Go pointer that may be `nil` is an `Option`; dereferencing `nil` is the
  explicit outcome `Except.error GoPanic.nilDeref`.
* Calls through the `Runtime` and `Selector` interfaces are recorded in a call
  trace (`List Call`), so that "is not called" is a statement about the trace.
-/

namespace Lion

/-! ## Data model -/

/-- Node is prophet info (`prophet_leader.go`). -/
structure Node where
  ID : Nat
  Name : String
  Addr : String
  deriving DecidableEq, Repr

/-- Peer: one replica placement; carries the identifier of the container it
resides on. -/
structure Peer where
  ID : Nat
  ContainerID : Nat
  deriving DecidableEq, Repr

/-- ContainerRuntime: `ID` is `meta.ID()`, `labels` the location labels of the
container metadata (key, value), `LeaderScore` the value of `LeaderScore()`. -/
structure ContainerRuntime where
  ID : Nat
  labels : List (String × String)
  LeaderScore : ℚ
  deriving DecidableEq, Repr

/-- ResourceRuntime: `ID` is `meta.ID()`, `peers` is `meta.Peers()`, `leaderPeer`
the recorded leader peer (a pointer, possibly `nil`). -/
structure ResourceRuntime where
  ID : Nat
  peers : List Peer
  leaderPeer : Option Peer
  deriving DecidableEq, Repr

/-- Modelled from the spec: `ResourceRuntime.GetContainerPeer` (its source is not
part of the excerpt) returns the peer of the resource that resides on the given
container, `nil` when the resource has no peer there. -/
def ResourceRuntime.GetContainerPeer (res : ResourceRuntime) (containerID : Nat) :
    Option Peer :=
  res.peers.find? (fun p => p.ContainerID == containerID)

/-- ResourceKind: the dimension a scheduler balances. -/
inductive ResourceKind
  | LeaderKind
  | ReplicaKind
  deriving DecidableEq, Repr

/-- Modelled from the spec: `Runtime` (its source is not part of the excerpt) is
represented by the answers of its read-only queries (section 4.3):
`GetContainers()`, `GetContainer(id)`, `RandLeaderResource(containerID)`,
`RandFollowerResource(containerID)` and `GetResourceFollowerContainers(res)`.
The two random picks are the answers given during the call under study. -/
structure Runtime where
  GetContainers : List ContainerRuntime
  GetContainer : Nat → Option ContainerRuntime
  RandLeaderResource : Nat → Option ResourceRuntime
  RandFollowerResource : Nat → Option ResourceRuntime
  GetResourceFollowerContainers : ResourceRuntime → List ContainerRuntime

/-! ## prophet_leader.go: the leadership flag -/

/-- The fields of `Prophet` that the leadership callbacks read or write:
`leaderFlag` (an `int64` accessed atomically), `rt`, `leader`, `node`,
`signature` and `completeC` (`none` is a nil channel, `some n` a channel on
which `n` election-complete signals have been sent). -/
structure Prophet where
  node : Node
  signature : String
  leader : Option Node
  leaderFlag : Int
  rt : Option Runtime
  completeC : Option Nat

/-- `notifyElectionComplete`: sends one signal when the channel is not nil. -/
def Prophet.notifyElectionComplete (p : Prophet) : Prophet :=
  match p.completeC with
  | some n => { p with completeC := some (n + 1) }
  | none => p

/-- `enableLeader`: stores 1 in the flag, installs the freshly loaded runtime
(`loaded` stands for `newRuntime(p.store)` after `load()`), and notifies. -/
def Prophet.enableLeader (loaded : Runtime) (p : Prophet) : Prophet :=
  Prophet.notifyElectionComplete { p with leaderFlag := 1, rt := some loaded }

/-- `disableLeader`: stores 0 in the flag. -/
def Prophet.disableLeader (p : Prophet) : Prophet :=
  { p with leaderFlag := 0 }

/-- `isLeader`: `return 0 == atomic.LoadInt64(&p.leaderFlag)`. -/
def Prophet.isLeader (p : Prophet) : Bool :=
  decide (0 = p.leaderFlag)

/-- `isMatchLeader`: non-nil, same name and same ID. -/
def Prophet.isMatchLeader (p : Prophet) (leaderNode : Option Node) : Bool :=
  match leaderNode with
  | none => false
  | some l => decide (p.node.Name = l.Name) && decide (p.node.ID = l.ID)

/-! ## cfg.go: configuration -/

/-- The schedulers `adujst` installs, named by their constructor. -/
inductive SchedulerCtor
  | newBalanceReplicaScheduler
  | newBalanceResourceLeaderScheduler
  deriving DecidableEq, Repr

/-- Nanoseconds of the `time` constants used by `adujst`. -/
def Millisecond : Int := 1000000
def Second : Int := 1000 * Millisecond
def Minute : Int := 60 * Second
def Hour : Int := 60 * Minute

/-- Cfg lion cfg. `schedulers` is a slice: `none` is the nil slice. The two
factory callbacks of the Go struct are not read or written by any function
embedded here and are not represented. -/
structure Cfg where
  MaxScheduleRetries : Int
  MaxScheduleInterval : Int
  MinScheduleInterval : Int
  TimeoutWaitOperatorComplete : Int
  MaxFreezeScheduleInterval : Int
  MaxAllowContainerDownDuration : Int
  MaxRebalanceLeader : Nat
  MaxRebalanceReplica : Nat
  MaxScheduleReplica : Nat
  MaxLimitSnapshotsCount : Nat
  CountResourceReplicas : Int
  MinAvailableStorageUsedRate : Int
  LocationLabels : List String
  schedulers : Option (List SchedulerCtor)
  deriving DecidableEq, Repr

/-- `Cfg.adujst`: the sequence of `if field == 0 { field = default }` statements,
in source order, followed by the installation of the two default schedulers
when the slice is nil. -/
def Cfg.adujst (c : Cfg) : Cfg :=
  let c := if c.MaxScheduleRetries = 0 then { c with MaxScheduleRetries := 3 } else c
  let c := if c.MaxScheduleInterval = 0 then { c with MaxScheduleInterval := Minute } else c
  let c := if c.MinScheduleInterval = 0 then
    { c with MinScheduleInterval := Millisecond * 10 } else c
  let c := if c.TimeoutWaitOperatorComplete = 0 then
    { c with TimeoutWaitOperatorComplete := 5 * Minute } else c
  let c := if c.MaxFreezeScheduleInterval = 0 then
    { c with MaxFreezeScheduleInterval := 30 * Second } else c
  let c := if c.MaxAllowContainerDownDuration = 0 then
    { c with MaxAllowContainerDownDuration := Hour } else c
  let c := if c.MaxRebalanceReplica = 0 then { c with MaxRebalanceReplica := 12 } else c
  let c := if c.CountResourceReplicas = 0 then { c with CountResourceReplicas := 3 } else c
  let c := if c.MaxScheduleReplica = 0 then { c with MaxScheduleReplica := 16 } else c
  let c := if c.MinAvailableStorageUsedRate = 0 then
    { c with MinAvailableStorageUsedRate := 80 } else c
  let c := if c.MaxRebalanceLeader = 0 then { c with MaxRebalanceLeader := 16 } else c
  let c := if c.MaxLimitSnapshotsCount = 0 then { c with MaxLimitSnapshotsCount := 3 } else c
  match c.schedulers with
  | none =>
    { c with schedulers := some [SchedulerCtor.newBalanceReplicaScheduler,
                                 SchedulerCtor.newBalanceResourceLeaderScheduler] }
  | some _ => c

/-- `getLocationLabels`: a copy of the label list. -/
def Cfg.getLocationLabels (c : Cfg) : List String :=
  c.LocationLabels.foldl (fun value v => value ++ [v]) []

/-- Modelled from the spec: the value a container carries for a location label
key (`""` when the label is not set); the accessor is not part of the excerpt. -/
def ContainerRuntime.getLabelValue (c : ContainerRuntime) (key : String) : String :=
  (c.labels.lookup key).getD ""

/-- Modelled from the spec: scan of the label keys from position `i` on, for
`ContainerRuntime.compareLocation`. -/
def compareLocationFrom (s other : ContainerRuntime) : List String → Nat → Int
  | [], _ => -1
  | key :: rest, i =>
    if s.getLabelValue key ≠ other.getLabelValue key then (i : Int)
    else compareLocationFrom s other rest (i + 1)

/-- Modelled from the spec: `ContainerRuntime.compareLocation` (its source is not
part of the excerpt) finds the shallowest label index at which the container
differs from the candidate, and is -1 when no divergence is found. -/
def ContainerRuntime.compareLocation (s other : ContainerRuntime)
    (labels : List String) : Int :=
  compareLocationFrom s other labels 0

/-- The package variable `replicaBaseScore = float64(100)`. -/
def replicaBaseScore : ℚ := 100

/-- `Cfg.getDistinctScore`: the score that `other` is distinct from the
containers. The location comparison `s.compareLocation(other, labels)` is a
parameter (its source is not part of the excerpt). The loop over `containers`
is the left fold; `continue` and a comparison result of -1 leave the
accumulator untouched. -/
def Cfg.getDistinctScore
    (compareLocation : ContainerRuntime → ContainerRuntime → List String → Int)
    (c : Cfg) (containers : List ContainerRuntime) (other : ContainerRuntime) : ℚ :=
  let locationLabels := c.LocationLabels
  containers.foldl
    (fun score s =>
      if s.ID = other.ID then score
      else
        let index := compareLocation s other locationLabels
        if index ≠ -1 then
          score + replicaBaseScore ^ ((locationLabels.length : Int) - index - 1)
        else score)
    0

/-! ## scheduler_balancer_leader.go: the leader-balance scheduler -/

/-- Modelled from the spec: a `Filter` is a predicate over a container answering
"exclude this container from consideration". -/
abbrev Filter := ContainerRuntime → Bool

/-- The `Selector` interface: `SelectSource` and `SelectTarget` over a container
set and filters; `nil` when no container is selected. -/
structure Selector where
  SelectSource : List ContainerRuntime → List Filter → Option ContainerRuntime
  SelectTarget : List ContainerRuntime → List Filter → Option ContainerRuntime

/-- A nil dereference, the only run-time failure of the embedded code. -/
inductive GoPanic
  | nilDeref
  deriving DecidableEq, Repr

/-- One call through the `Runtime` or `Selector` interface, with its arguments. -/
inductive Call
  | GetContainers
  | GetContainer (id : Nat)
  | SelectSource (containers : List ContainerRuntime) (filters : List Filter)
  | SelectTarget (containers : List ContainerRuntime) (filters : List Filter)
  | RandLeaderResource (containerID : Nat)
  | RandFollowerResource (containerID : Nat)
  | GetResourceFollowerContainers (res : ResourceRuntime)

/-- A selector or resource query (everything except reading the container
index). -/
def Call.isSelectorOrResourceQuery : Call → Bool
  | Call.GetContainers => false
  | Call.GetContainer _ => false
  | _ => true

/-- A random resource pick. -/
def Call.isResourcePick : Call → Bool
  | Call.RandLeaderResource _ => true
  | Call.RandFollowerResource _ => true
  | _ => false

/-- A `SelectTarget` call. -/
def Call.isSelectTarget : Call → Bool
  | Call.SelectTarget _ _ => true
  | _ => false

/-- The accumulation `averageLeader += container.LeaderScore() / float64(len(containers))`
over all containers. -/
def averageLeader (containers : List ContainerRuntime) : ℚ :=
  containers.foldl (fun avg container => avg + container.LeaderScore / (containers.length : ℚ)) 0

/-- The distance of a selected container from the average:
`math.Abs(c.LeaderScore() - averageLeader)` when the container is not nil, and
the zero value of the declared variable otherwise. -/
def leaderDistance (c : Option ContainerRuntime) (average : ℚ) : ℚ :=
  match c with
  | some c => |c.LeaderScore - average|
  | none => 0

/-- `scheduleTransferLeader` schedules a resource to transfer leader to the
peer. The result is the returned pair (or the panic), together with the calls
made, in order. -/
def scheduleTransferLeader (rt : Runtime) (s : Selector) (filters : List Filter) :
    Except GoPanic (Option ResourceRuntime × Option Peer) × List Call :=
  let containers := rt.GetContainers
  if containers.length = 0 then
    (Except.ok (none, none), [Call.GetContainers])
  else
    let average := averageLeader containers
    let mostLeaderContainer := s.SelectSource containers filters
    let leastLeaderContainer := s.SelectTarget containers filters
    let selected := [Call.GetContainers, Call.SelectSource containers filters,
      Call.SelectTarget containers filters]
    let mostLeaderDistance := leaderDistance mostLeaderContainer average
    let leastLeaderDistance := leaderDistance leastLeaderContainer average
    if mostLeaderDistance = 0 ∧ leastLeaderDistance = 0 then
      (Except.ok (none, none), selected)
    else if mostLeaderDistance > leastLeaderDistance then
      -- Transfer a leader out of mostLeaderContainer.
      match mostLeaderContainer with
      | none => (Except.error GoPanic.nilDeref, selected)
      | some most =>
        match rt.RandLeaderResource most.ID with
        | none => (Except.ok (none, none), selected ++ [Call.RandLeaderResource most.ID])
        | some res =>
          let targetContainers := rt.GetResourceFollowerContainers res
          let calls := selected ++ [Call.RandLeaderResource most.ID,
            Call.GetResourceFollowerContainers res, Call.SelectTarget targetContainers []]
          match s.SelectTarget targetContainers [] with
          | none => (Except.ok (none, none), calls)
          | some target => (Except.ok (some res, res.GetContainerPeer target.ID), calls)
    else
      -- Transfer a leader into leastLeaderContainer.
      match leastLeaderContainer with
      | none => (Except.error GoPanic.nilDeref, selected)
      | some least =>
        match rt.RandFollowerResource least.ID with
        | none => (Except.ok (none, none), selected ++ [Call.RandFollowerResource least.ID])
        | some res =>
          (Except.ok (some res, res.GetContainerPeer least.ID),
            selected ++ [Call.RandFollowerResource least.ID])

/-- The operator built by `newTransferLeaderAggregationOp(res, newLeader)`. -/
inductive Operator
  | newTransferLeaderAggregationOp (res : ResourceRuntime) (newLeader : Peer)
  deriving DecidableEq, Repr

/-- Functions of the package that the scheduler calls and whose source is not
part of the excerpt; they are parameters of the embedding. `shouldBalance`
receives the two (possibly nil) container pointers. -/
structure Deps where
  NewBlockFilter : Filter
  NewStateFilter : Filter
  NewHealthFilter : Filter
  newBalanceSelector : ResourceKind → List Filter → Selector
  shouldBalance : Option ContainerRuntime → Option ContainerRuntime → ResourceKind → Bool
  adjustBalanceLimit : Runtime → ResourceKind → Nat

/-- Modelled from the spec: `minUint64` (its source is not part of the excerpt)
is the smaller of two `uint64` values; the limit is "bounded above by a
configured max". -/
def minUint64 (a b : Nat) : Nat :=
  if a < b then a else b

/-- The scheduler struct: private `limit` and `selector`. -/
structure balanceResourceLeaderScheduler where
  limit : Nat
  selector : Selector

/-- `newBalanceResourceLeaderScheduler`: limit 1 and a balance selector for
`LeaderKind` over the block, state and health filters. -/
def newBalanceResourceLeaderScheduler (d : Deps) : balanceResourceLeaderScheduler :=
  let filters : List Filter := []
  let filters := filters ++ [d.NewBlockFilter]
  let filters := filters ++ [d.NewStateFilter]
  let filters := filters ++ [d.NewHealthFilter]
  { limit := 1, selector := d.newBalanceSelector ResourceKind.LeaderKind filters }

/-- `ResourceKind()` of the leader-balance scheduler. -/
def balanceResourceLeaderScheduler.ResourceKind (_l : balanceResourceLeaderScheduler) :
    ResourceKind :=
  ResourceKind.LeaderKind

/-- `ResourceLimit()`: `minUint64(l.limit, cfg.MaxRebalanceLeader)`; the package
variable `cfg` is passed explicitly. -/
def balanceResourceLeaderScheduler.ResourceLimit (cfg : Cfg)
    (l : balanceResourceLeaderScheduler) : Nat :=
  minUint64 l.limit cfg.MaxRebalanceLeader

/-- The outcome of one `Schedule` call: the returned operator (`none` is the nil
operator) or the panic, the scheduler after the call, and the calls made. -/
structure ScheduleOutcome where
  result : Except GoPanic (Option Operator)
  scheduler : balanceResourceLeaderScheduler
  calls : List Call

/-- `balanceResourceLeaderScheduler.Schedule`. -/
def balanceResourceLeaderScheduler.Schedule (d : Deps)
    (l : balanceResourceLeaderScheduler) (rt : Runtime) : ScheduleOutcome :=
  match scheduleTransferLeader rt l.selector [] with
  | (Except.error e, calls) => { result := Except.error e, scheduler := l, calls := calls }
  | (Except.ok (none, _), calls) => { result := Except.ok none, scheduler := l, calls := calls }
  | (Except.ok (some res, newLeader), calls) =>
    match res.leaderPeer with
    | none => { result := Except.error GoPanic.nilDeref, scheduler := l, calls := calls }
    | some leaderPeer =>
      let source := rt.GetContainer leaderPeer.ContainerID
      match newLeader with
      | none =>
        { result := Except.error GoPanic.nilDeref, scheduler := l,
          calls := calls ++ [Call.GetContainer leaderPeer.ContainerID] }
      | some newLeader =>
        let target := rt.GetContainer newLeader.ContainerID
        let calls := calls ++ [Call.GetContainer leaderPeer.ContainerID,
          Call.GetContainer newLeader.ContainerID]
        if ¬ d.shouldBalance source target l.ResourceKind then
          { result := Except.ok none, scheduler := l, calls := calls }
        else
          { result := Except.ok (some (Operator.newTransferLeaderAggregationOp res newLeader)),
            scheduler := { l with limit := d.adjustBalanceLimit rt l.ResourceKind },
            calls := calls }

/-! ## Specification-side definitions and concrete clusters -/

/-- The contribution of one existing container `s` to the distinct score of the
candidate `other`, as the specification words it: nothing for a container with
the candidate's ID or with no diverging label, and `100 ^ (L - i - 1)` for a
container diverging at index `i`. -/
def distinctContribution
    (compareLocation : ContainerRuntime → ContainerRuntime → List String → Int)
    (labels : List String) (other s : ContainerRuntime) : ℚ :=
  if s.ID = other.ID ∨ compareLocation s other labels = -1 then 0
  else (100 : ℚ) ^ ((labels.length : Int) - compareLocation s other labels - 1)

/-- The specified distinct score: the sum of `100 ^ (L - i - 1)` over the
existing containers whose ID differs from the candidate's and whose divergence
index `i` is not -1. -/
def specDistinctScore
    (compareLocation : ContainerRuntime → ContainerRuntime → List String → Int)
    (labels : List String) (containers : List ContainerRuntime)
    (other : ContainerRuntime) : ℚ :=
  ((containers.filter
      (fun s => decide (s.ID ≠ other.ID ∧ compareLocation s other labels ≠ -1))).map
    (fun s => (100 : ℚ) ^ ((labels.length : Int) - compareLocation s other labels - 1))).sum

/-- The average leader score of all containers, as the specification words it:
the sum of the scores divided by the number of containers. -/
def meanLeaderScore (containers : List ContainerRuntime) : ℚ :=
  (containers.map (fun c => c.LeaderScore)).sum / (containers.length : ℚ)

/-- A configuration with every option unset and the single location label
`zone`. -/
def zoneCfg : Cfg :=
  { MaxScheduleRetries := 0, MaxScheduleInterval := 0, MinScheduleInterval := 0,
    TimeoutWaitOperatorComplete := 0, MaxFreezeScheduleInterval := 0,
    MaxAllowContainerDownDuration := 0, MaxRebalanceLeader := 0, MaxRebalanceReplica := 0,
    MaxScheduleReplica := 0, MaxLimitSnapshotsCount := 0, CountResourceReplicas := 0,
    MinAvailableStorageUsedRate := 0, LocationLabels := ["zone"], schedulers := none }

/-- A container in the given zone. -/
def zoneContainer (id : Nat) (zone : String) (score : ℚ) : ContainerRuntime :=
  { ID := id, labels := [("zone", zone)], LeaderScore := score }

/-- The unset configuration with the two location labels `zone, rack`. -/
def rackCfg : Cfg := { zoneCfg with LocationLabels := ["zone", "rack"] }

/-- A container in the given zone and rack. -/
def rackContainer (id : Nat) (zone rack : String) : ContainerRuntime :=
  { ID := id, labels := [("zone", zone), ("rack", rack)], LeaderScore := 0 }

/-- The containers left after the exclusion filters. -/
def keepUnfiltered (containers : List ContainerRuntime) (filters : List Filter) :
    List ContainerRuntime :=
  containers.filter (fun c => !(filters.any (fun f => f c)))

/-- The first container of highest leader score. -/
def highestLeaderScore (containers : List ContainerRuntime) : Option ContainerRuntime :=
  containers.foldl
    (fun best c =>
      match best with
      | none => some c
      | some b => if b.LeaderScore < c.LeaderScore then some c else some b)
    none

/-- The first container of lowest leader score. -/
def lowestLeaderScore (containers : List ContainerRuntime) : Option ContainerRuntime :=
  containers.foldl
    (fun best c =>
      match best with
      | none => some c
      | some b => if c.LeaderScore < b.LeaderScore then some c else some b)
    none

/-- A selector that returns the highest-score container as source and the
lowest-score container as target, after the exclusion filters. -/
def scoreSelector (own : List Filter) : Selector :=
  { SelectSource := fun containers filters =>
      highestLeaderScore (keepUnfiltered containers (own ++ filters)),
    SelectTarget := fun containers filters =>
      lowestLeaderScore (keepUnfiltered containers (own ++ filters)) }

/-- An instance of the functions outside the excerpt: filters that exclude
nothing, the score selector, a veto unless the target scores strictly less than
the source, and a limit equal to the number of containers, at least 1. -/
def sampleDeps : Deps :=
  { NewBlockFilter := fun _ => false,
    NewStateFilter := fun _ => false,
    NewHealthFilter := fun _ => false,
    newBalanceSelector := fun _ filters => scoreSelector filters,
    shouldBalance := fun source target _ =>
      match source, target with
      | some a, some b => decide (b.LeaderScore < a.LeaderScore)
      | _, _ => false,
    adjustBalanceLimit := fun rt _ => max 1 rt.GetContainers.length }

/-- A resource with a leader peer on container 1 and follower peers on
containers 2 and 3. -/
def resource1 : ResourceRuntime :=
  { ID := 100, peers := [⟨11, 1⟩, ⟨12, 2⟩, ⟨13, 3⟩], leaderPeer := some ⟨11, 1⟩ }

/-- A runtime over the given containers in which container 1 leads `resource1`
and containers 2 and 3 follow it. -/
def clusterRuntime (containers : List ContainerRuntime) : Runtime :=
  { GetContainers := containers,
    GetContainer := fun id => containers.find? (fun c => c.ID == id),
    RandLeaderResource := fun id => if id = 1 then some resource1 else none,
    RandFollowerResource := fun id => if id = 2 ∨ id = 3 then some resource1 else none,
    GetResourceFollowerContainers := fun res =>
      containers.filter (fun c =>
        res.peers.any (fun p => p.ContainerID == c.ID && some p != res.leaderPeer)) }

/-- Three containers in one zone with leader scores 10, 0, 0. -/
def skewedRuntime : Runtime :=
  clusterRuntime [zoneContainer 1 "z1" 10, zoneContainer 2 "z1" 0, zoneContainer 3 "z1" 0]

/-- Three containers in one zone with leader scores 4, 1, 4: the least loaded
container is further from the average 3 than the most loaded one. -/
def starvedRuntime : Runtime :=
  clusterRuntime [zoneContainer 1 "z1" 4, zoneContainer 2 "z1" 1, zoneContainer 3 "z1" 4]

/-- Three containers in one zone with equal leader scores. -/
def balancedRuntime : Runtime :=
  clusterRuntime [zoneContainer 1 "z1" 5, zoneContainer 2 "z1" 5, zoneContainer 3 "z1" 5]

/-- The skewed cluster with no resource recorded. -/
def idleRuntime : Runtime :=
  { skewedRuntime with RandLeaderResource := fun _ => none,
                       RandFollowerResource := fun _ => none }

/-- The runtime loaded from an empty store. -/
def emptyRuntime : Runtime := clusterRuntime []

/-! ## prophet_leader.go: the leadership driver loop -/

/-- The package variable `loopInterval = 200 * time.Millisecond`. -/
def loopInterval : Int := 200 * Millisecond

/-- An error returned by a Store call. -/
structure StoreError where
  text : String
  deriving DecidableEq, Repr

/-- A callback that `CampaignLeader` invokes: `p.enableLeader` (with the runtime
it loads from the store) or `p.disableLeader`. -/
inductive LeaderCallback
  | enableLeader (loaded : Runtime)
  | disableLeader

/-- The callbacks invoked during one `CampaignLeader` call, applied in order. -/
def Prophet.runCallbacks (p : Prophet) : List LeaderCallback → Prophet
  | [] => p
  | LeaderCallback.enableLeader loaded :: rest =>
    Prophet.runCallbacks (Prophet.enableLeader loaded p) rest
  | LeaderCallback.disableLeader :: rest =>
    Prophet.runCallbacks (Prophet.disableLeader p) rest

/-- The answers of the `Store` interface (`store.go`) during one iteration of the
loop: the result of `GetCurrentLeader()` (a possibly nil leader, or an error),
the error returned by `ResignLeader` (`none` is nil), and for `CampaignLeader`
the callbacks it invokes and the error it returns. An answer is only consulted
when the iteration makes the call. -/
structure StoreAnswers where
  GetCurrentLeader : Except StoreError (Option Node)
  ResignLeader : Option StoreError
  CampaignLeader : List LeaderCallback × Option StoreError

/-- What one iteration of the loop does, in order: the Store calls, the
election-complete signal sent by the loop body, and the back-off sleep. -/
inductive LoopEvent
  | GetCurrentLeader
  | ResignLeader (signature : String)
  | notifyElectionComplete
  | WatchLeader
  | CampaignLeader (signature : String) (ttl : Int)
  | Sleep (duration : Int)
  deriving DecidableEq, Repr

/-- How an iteration ends: `again` is `continue` or the end of the loop body,
`exited` is the `return` of the task. -/
inductive LoopControl
  | again
  | exited
  deriving DecidableEq, Repr

/-- The outcome of one iteration. -/
structure LoopStep where
  prophet : Prophet
  events : List LoopEvent
  control : LoopControl

/-- The tail of the loop body: `p.store.CampaignLeader(p.signature,
p.opts.leaseTTL, p.enableLeader, p.disableLeader)`; its error is only logged. -/
def Prophet.campaignStage (leaseTTL : Int) (p : Prophet) (store : StoreAnswers)
    (events : List LoopEvent) : LoopStep :=
  { prophet := p.runCallbacks store.CampaignLeader.1,
    events := events ++ [LoopEvent.CampaignLeader p.signature leaseTTL],
    control := LoopControl.again }

/-- One iteration of the `for` loop of `startLeaderLoop`. `ctxDone` tells whether
`ctx.Done()` is ready when the `select` is evaluated; `leaseTTL` is
`p.opts.leaseTTL`. Log calls are not represented. -/
def Prophet.startLeaderLoopIteration (leaseTTL : Int) (p : Prophet) (ctxDone : Bool)
    (store : StoreAnswers) : LoopStep :=
  if ctxDone then
    { prophet := p, events := [], control := LoopControl.exited }
  else
    match store.GetCurrentLeader with
    | Except.error _ =>
      { prophet := p, events := [LoopEvent.GetCurrentLeader, LoopEvent.Sleep loopInterval],
        control := LoopControl.again }
    | Except.ok none =>
      p.campaignStage leaseTTL store [LoopEvent.GetCurrentLeader]
    | Except.ok (some leader) =>
      if p.isMatchLeader (some leader) then
        -- we are already leader: resign and campaign again
        match store.ResignLeader with
        | some _ =>
          { prophet := p,
            events := [LoopEvent.GetCurrentLeader, LoopEvent.ResignLeader p.signature,
              LoopEvent.Sleep loopInterval],
            control := LoopControl.again }
        | none =>
          p.campaignStage leaseTTL store
            [LoopEvent.GetCurrentLeader, LoopEvent.ResignLeader p.signature]
      else
        -- we are not leader: watch the leader
        Prophet.campaignStage leaseTTL
          (Prophet.notifyElectionComplete { p with leader := some leader }) store
          [LoopEvent.GetCurrentLeader, LoopEvent.notifyElectionComplete,
            LoopEvent.WatchLeader]

/-- The outcome of running the loop over a finite sequence of iterations. -/
structure LoopRun where
  prophet : Prophet
  events : List LoopEvent
  iterations : Nat
  terminated : Bool

/-- The cancelable task of `startLeaderLoop`: the loop run over the given
iterations (each with the state of the context and the answers of the Store),
stopping at the first iteration that returns. `iterations` counts the
iterations that ran their body to the end. -/
def Prophet.startLeaderLoopTask (leaseTTL : Int) (p : Prophet) :
    List (Bool × StoreAnswers) → LoopRun
  | [] => { prophet := p, events := [], iterations := 0, terminated := false }
  | (ctxDone, store) :: rest =>
    let step := p.startLeaderLoopIteration leaseTTL ctxDone store
    match step.control with
    | LoopControl.exited =>
      { prophet := step.prophet, events := step.events, iterations := 0, terminated := true }
    | LoopControl.again =>
      let run := Prophet.startLeaderLoopTask leaseTTL step.prophet rest
      { prophet := run.prophet, events := step.events ++ run.events,
        iterations := run.iterations + 1, terminated := run.terminated }

/-! ## The Elector (exercised by election_test.go) -/

/-- The typed errors of the Elector. -/
inductive ElectorError
  | NotLeaderError
  | NoLeaderError
  deriving DecidableEq, Repr

/-- Modelled from the spec: the election state of the Elector (its source is not
part of the excerpt; only its tests are). Per election group: the identity
currently recorded as leader, and the identity the next campaign round is
biased toward after a forced transfer. -/
structure ElectorState where
  leaders : Nat → Option String
  expected : Nat → Option String

/-- Modelled from the spec: `ChangeLeaderTo(group, fromID, toID)` (its source is
not part of the excerpt) fails with `NotLeaderError` unless `fromID` is the
current leader of `group`, attempting no state change; otherwise it forces the
resignation of `fromID`, so that a new campaign round occurs, biased toward
`toID`. -/
def ElectorState.ChangeLeaderTo (st : ElectorState) (group : Nat) (fromID toID : String) :
    Except ElectorError Unit × ElectorState :=
  if st.leaders group = some fromID then
    (Except.ok (),
      { leaders := fun g => if g = group then none else st.leaders g,
        expected := fun g => if g = group then some toID else st.expected g })
  else
    (Except.error ElectorError.NotLeaderError, st)

/-- Modelled from the spec: `CurrentLeader(group)` (its source is not part of
the excerpt) returns the identity currently recorded as leader, or fails with
`NoLeaderError` if none is recorded. -/
def ElectorState.CurrentLeader (st : ElectorState) (group : Nat) :
    Except ElectorError String :=
  match st.leaders group with
  | some id => Except.ok id
  | none => Except.error ElectorError.NoLeaderError

/-- The state of `TestChangeLeaderTo` after `value1` and `value2` have started:
identity `"1"` leads group 0. -/
def testElectorState : ElectorState :=
  { leaders := fun g => if g = 0 then some "1" else none,
    expected := fun _ => none }

/-! ## Concrete inputs for the scheduler and the driver -/

/-- A selector that never selects a container. -/
def nilSelector : Selector :=
  { SelectSource := fun _ _ => none, SelectTarget := fun _ _ => none }

/-- The cluster with leader scores 4, 1, 4 in which the resource picked for the
least loaded container 2 has no peer on container 2. -/
def inconsistentRuntime : Runtime :=
  { starvedRuntime with
    RandFollowerResource := fun _ =>
      some { ID := 102, peers := [⟨31, 1⟩, ⟨33, 3⟩], leaderPeer := some ⟨31, 1⟩ } }

/-- The cluster with leader scores 4, 1, 4 in which the resource picked for the
least loaded container 2 has a peer there but no recorded leader peer. -/
def leaderlessRuntime : Runtime :=
  { starvedRuntime with
    RandFollowerResource := fun _ =>
      some { ID := 101, peers := [⟨21, 1⟩, ⟨22, 2⟩, ⟨23, 3⟩], leaderPeer := none } }

/-- A node of the driver examples. -/
def node1 : Node := { ID := 1, Name := "n1", Addr := "10.0.0.1:9529" }

/-- Another node of the driver examples. -/
def node2 : Node := { ID := 2, Name := "n2", Addr := "10.0.0.2:9529" }

/-- A follower Prophet on `node1` with a waiter on the election-complete
channel. -/
def prophet1 : Prophet :=
  { node := node1, signature := "sig-n1", leader := none, leaderFlag := 0, rt := none,
    completeC := some 0 }

/-! ## float64 arithmetic (IEEE 754 binary64)

The score computations of `scheduleTransferLeader` and `getDistinctScore` are
carried out by the code in `float64`. The definitions of this section give that
arithmetic: a value is finite (held as the rational it denotes), an infinity or
NaN; every operation is the exact operation followed by rounding to nearest,
ties to even, with a 53-bit significand, gradual underflow and overflow to an
infinity. The sign of zero is not represented. -/

/-- A `float64` value. -/
inductive F64
  | finite (q : ℚ)
  | posInf
  | negInf
  | NaN
  deriving DecidableEq

/-- The nearest integer, ties to even. -/
def roundHalfEven (q : ℚ) : Int :=
  let f := ⌊q⌋
  if q - f < 1 / 2 then f
  else if 1 / 2 < q - f then f + 1
  else if f % 2 = 0 then f else f + 1

/-- The base-2 logarithm of a natural number, rounded down (0 for 0 and 1);
`fuel` bounds the number of halvings. -/
def log2Fuel : Nat → Nat → Nat
  | 0, _ => 0
  | fuel + 1, n => if n < 2 then 0 else log2Fuel fuel (n / 2) + 1

/-- The base-2 logarithm of a natural number, rounded down. -/
def natLog2 (n : Nat) : Nat := log2Fuel n n

/-- The binade of a positive rational `a`: the exponent `e` with
`2 ^ e ≤ a < 2 ^ (e + 1)`. -/
def binade (a : ℚ) : Int :=
  let e : Int := (natLog2 a.num.natAbs : Int) - (natLog2 a.den : Int)
  if (2 : ℚ) ^ e ≤ a then e else e - 1

/-- Rounding of an exact result to `float64`: the unit in the last place is
`2 ^ (binade - 52)`, not below `2 ^ (-1074)`; the significand is rounded to the
nearest integer, ties to even; a rounded magnitude of `2 ^ 1024` or more is an
infinity. -/
def F64.round (q : ℚ) : F64 :=
  if q = 0 then F64.finite 0
  else
    let quantum : Int := max (binade |q| - 52) (-1074)
    let r : ℚ := (roundHalfEven (|q| / 2 ^ quantum) : ℚ) * 2 ^ quantum
    if (2 : ℚ) ^ (1024 : Int) ≤ r then (if q < 0 then F64.negInf else F64.posInf)
    else F64.finite (if q < 0 then -r else r)

/-- The conversion `float64(n)` of an integer. -/
def F64.ofInt (n : Int) : F64 := F64.round (n : ℚ)

/-- Negation. -/
def F64.neg : F64 → F64
  | F64.finite a => F64.finite (-a)
  | F64.posInf => F64.negInf
  | F64.negInf => F64.posInf
  | F64.NaN => F64.NaN

/-- Addition `x + y`. -/
def F64.add : F64 → F64 → F64
  | F64.finite a, F64.finite b => F64.round (a + b)
  | F64.NaN, _ => F64.NaN
  | _, F64.NaN => F64.NaN
  | F64.posInf, F64.negInf => F64.NaN
  | F64.negInf, F64.posInf => F64.NaN
  | F64.posInf, _ => F64.posInf
  | _, F64.posInf => F64.posInf
  | F64.negInf, _ => F64.negInf
  | _, F64.negInf => F64.negInf

/-- Subtraction `x - y`. -/
def F64.sub (x y : F64) : F64 := F64.add x (F64.neg y)

/-- Division `x / y`. A zero divisor is taken as positive zero. -/
def F64.div : F64 → F64 → F64
  | F64.NaN, _ => F64.NaN
  | _, F64.NaN => F64.NaN
  | F64.finite a, F64.finite b =>
    if b = 0 then (if a = 0 then F64.NaN else if 0 < a then F64.posInf else F64.negInf)
    else F64.round (a / b)
  | F64.finite _, _ => F64.finite 0
  | F64.posInf, F64.finite b => if 0 ≤ b then F64.posInf else F64.negInf
  | F64.negInf, F64.finite b => if 0 ≤ b then F64.negInf else F64.posInf
  | _, _ => F64.NaN

/-- `math.Abs`. -/
def F64.abs : F64 → F64
  | F64.finite a => F64.finite |a|
  | F64.posInf => F64.posInf
  | F64.negInf => F64.posInf
  | F64.NaN => F64.NaN

/-- The comparison `x > y`; false when an operand is NaN. -/
def F64.gt : F64 → F64 → Bool
  | F64.finite a, F64.finite b => decide (b < a)
  | F64.NaN, _ => false
  | _, F64.NaN => false
  | F64.posInf, F64.posInf => false
  | F64.posInf, _ => true
  | _, F64.posInf => false
  | F64.negInf, _ => false
  | _, F64.negInf => true

/-- The comparison `x == 0`. -/
def F64.isZero (x : F64) : Bool := decide (x = F64.finite 0)

/-- An instance of `math.Pow(x, y)` (standard library, not part of the
repository) for a finite base and an integer-valued exponent: the correctly
rounded power; NaN stands for the arguments not covered. It is used on powers
that are exactly representable, which `math.Pow` returns exactly. -/
def F64.powInteger : F64 → F64 → F64
  | F64.finite x, F64.finite y =>
    if (y.den = 1) then (if x = 0 ∧ y.num < 0 then F64.posInf else F64.round (x ^ y.num))
    else F64.NaN
  | _, _ => F64.NaN

namespace IEEE

/-- The accumulation `averageLeader += container.LeaderScore() / float64(len(containers))`
over all containers, in `float64`. -/
def averageLeader (containers : List ContainerRuntime) : F64 :=
  containers.foldl
    (fun avg container =>
      F64.add avg (F64.div (F64.finite container.LeaderScore) (F64.ofInt containers.length)))
    (F64.finite 0)

/-- The distance of a selected container from the average, in `float64`:
`math.Abs(c.LeaderScore() - averageLeader)` when the container is not nil, and
the zero value of the declared variable otherwise. -/
def leaderDistance (c : Option ContainerRuntime) (average : F64) : F64 :=
  match c with
  | some c => F64.abs (F64.sub (F64.finite c.LeaderScore) average)
  | none => F64.finite 0

/-- `scheduleTransferLeader` with the score arithmetic in `float64`. The result
is the returned pair (or the panic), together with the calls made, in order. -/
def scheduleTransferLeader (rt : Runtime) (s : Selector) (filters : List Filter) :
    Except GoPanic (Option ResourceRuntime × Option Peer) × List Call :=
  let containers := rt.GetContainers
  if containers.length = 0 then
    (Except.ok (none, none), [Call.GetContainers])
  else
    let average := averageLeader containers
    let mostLeaderContainer := s.SelectSource containers filters
    let leastLeaderContainer := s.SelectTarget containers filters
    let selected := [Call.GetContainers, Call.SelectSource containers filters,
      Call.SelectTarget containers filters]
    let mostLeaderDistance := leaderDistance mostLeaderContainer average
    let leastLeaderDistance := leaderDistance leastLeaderContainer average
    if mostLeaderDistance.isZero = true ∧ leastLeaderDistance.isZero = true then
      (Except.ok (none, none), selected)
    else if F64.gt mostLeaderDistance leastLeaderDistance = true then
      -- Transfer a leader out of mostLeaderContainer.
      match mostLeaderContainer with
      | none => (Except.error GoPanic.nilDeref, selected)
      | some most =>
        match rt.RandLeaderResource most.ID with
        | none => (Except.ok (none, none), selected ++ [Call.RandLeaderResource most.ID])
        | some res =>
          let targetContainers := rt.GetResourceFollowerContainers res
          let calls := selected ++ [Call.RandLeaderResource most.ID,
            Call.GetResourceFollowerContainers res, Call.SelectTarget targetContainers []]
          match s.SelectTarget targetContainers [] with
          | none => (Except.ok (none, none), calls)
          | some target => (Except.ok (some res, res.GetContainerPeer target.ID), calls)
    else
      -- Transfer a leader into leastLeaderContainer.
      match leastLeaderContainer with
      | none => (Except.error GoPanic.nilDeref, selected)
      | some least =>
        match rt.RandFollowerResource least.ID with
        | none => (Except.ok (none, none), selected ++ [Call.RandFollowerResource least.ID])
        | some res =>
          (Except.ok (some res, res.GetContainerPeer least.ID),
            selected ++ [Call.RandFollowerResource least.ID])

/-- `balanceResourceLeaderScheduler.Schedule` over the `float64`
`scheduleTransferLeader`. -/
def Schedule (d : Deps) (l : balanceResourceLeaderScheduler) (rt : Runtime) :
    ScheduleOutcome :=
  match scheduleTransferLeader rt l.selector [] with
  | (Except.error e, calls) => { result := Except.error e, scheduler := l, calls := calls }
  | (Except.ok (none, _), calls) => { result := Except.ok none, scheduler := l, calls := calls }
  | (Except.ok (some res, newLeader), calls) =>
    match res.leaderPeer with
    | none => { result := Except.error GoPanic.nilDeref, scheduler := l, calls := calls }
    | some leaderPeer =>
      let source := rt.GetContainer leaderPeer.ContainerID
      match newLeader with
      | none =>
        { result := Except.error GoPanic.nilDeref, scheduler := l,
          calls := calls ++ [Call.GetContainer leaderPeer.ContainerID] }
      | some newLeader =>
        let target := rt.GetContainer newLeader.ContainerID
        let calls := calls ++ [Call.GetContainer leaderPeer.ContainerID,
          Call.GetContainer newLeader.ContainerID]
        if ¬ d.shouldBalance source target l.ResourceKind then
          { result := Except.ok none, scheduler := l, calls := calls }
        else
          { result := Except.ok (some (Operator.newTransferLeaderAggregationOp res newLeader)),
            scheduler := { l with limit := d.adjustBalanceLimit rt l.ResourceKind },
            calls := calls }

/-- `Cfg.getDistinctScore` with the score accumulated in `float64`. The location
comparison `s.compareLocation(other, labels)` and `math.Pow` are parameters
(their sources are not part of the excerpt). -/
def getDistinctScore (mathPow : F64 → F64 → F64)
    (compareLocation : ContainerRuntime → ContainerRuntime → List String → Int)
    (c : Cfg) (containers : List ContainerRuntime) (other : ContainerRuntime) : F64 :=
  let locationLabels := c.LocationLabels
  containers.foldl
    (fun score s =>
      if s.ID = other.ID then score
      else
        let index := compareLocation s other locationLabels
        if index ≠ -1 then
          F64.add score
            (mathPow (F64.finite replicaBaseScore)
              (F64.ofInt ((locationLabels.length : Int) - index - 1)))
        else score)
    (F64.finite 0)

end IEEE

deriving instance DecidableEq for Except

/-! ## Concrete inputs for the float64 statements -/

/-- Nine location labels. -/
def nineLabels : List String := ["l0", "l1", "l2", "l3", "l4", "l5", "l6", "l7", "l8"]

/-- The unset configuration with the nine location labels. -/
def nineCfg : Cfg := { zoneCfg with LocationLabels := nineLabels }

/-- A container with the given values of the nine labels. -/
def nineContainer (id : Nat) (values : List String) : ContainerRuntime :=
  { ID := id, labels := nineLabels.zip values, LeaderScore := 0 }

/-- The candidate of the nine-label examples. -/
def nineCandidate : ContainerRuntime :=
  nineContainer 10 ["a", "a", "a", "a", "a", "a", "a", "a", "a"]

/-- An existing container that differs from the candidate at the first label
(index 0). -/
def farContainer : ContainerRuntime :=
  nineContainer 11 ["b", "a", "a", "a", "a", "a", "a", "a", "a"]

/-- An existing container that differs from the candidate at the last label only
(index 8). -/
def nearContainer1 : ContainerRuntime :=
  nineContainer 12 ["a", "a", "a", "a", "a", "a", "a", "a", "b"]

/-- Another existing container that differs from the candidate at the last label
only. -/
def nearContainer2 : ContainerRuntime :=
  nineContainer 13 ["a", "a", "a", "a", "a", "a", "a", "a", "c"]

/-- A resource led on container 2, with a follower peer on container 1. -/
def followerOn1 : ResourceRuntime :=
  { ID := 103, peers := [⟨41, 2⟩, ⟨42, 1⟩], leaderPeer := some ⟨41, 2⟩ }

/-- Six containers of leader score 1 in one zone; container 1 follows
`followerOn1`. -/
def sixOnesRuntime : Runtime :=
  { GetContainers := [zoneContainer 1 "z1" 1, zoneContainer 2 "z1" 1, zoneContainer 3 "z1" 1,
      zoneContainer 4 "z1" 1, zoneContainer 5 "z1" 1, zoneContainer 6 "z1" 1],
    GetContainer := fun _ => none,
    RandLeaderResource := fun _ => none,
    RandFollowerResource := fun id => if id = 1 then some followerOn1 else none,
    GetResourceFollowerContainers := fun _ => [] }

/-- The `float64` nearest to 0.1. -/
def tenth : ℚ := 3602879701896397 / 36028797018963968

/-- The `float64` nearest to 0.9. -/
def nineTenths : ℚ := 8106479329266893 / 9007199254740992

/-- A resource led on container 3, with follower peers on containers 1 and 2. -/
def ledOn3 : ResourceRuntime :=
  { ID := 104, peers := [⟨51, 3⟩, ⟨52, 1⟩, ⟨53, 2⟩], leaderPeer := some ⟨51, 3⟩ }

/-- Three containers of leader scores 0.1, 0.5, 0.9 (as `float64`). Container 3
leads `ledOn3`, followed on containers 1 and 2; no container has a follower
resource to offer. -/
def fractionalRuntime : Runtime :=
  { GetContainers := [zoneContainer 1 "z1" tenth, zoneContainer 2 "z1" (1 / 2),
      zoneContainer 3 "z1" nineTenths],
    GetContainer := fun _ => none,
    RandLeaderResource := fun id => if id = 3 then some ledOn3 else none,
    RandFollowerResource := fun _ => none,
    GetResourceFollowerContainers := fun _ =>
      [zoneContainer 1 "z1" tenth, zoneContainer 2 "z1" (1 / 2)] }

/-- A resource led on container 2, with follower peers on containers 1 and 3. -/
def ledOn2 : ResourceRuntime :=
  { ID := 105, peers := [⟨61, 2⟩, ⟨62, 1⟩, ⟨63, 3⟩], leaderPeer := some ⟨61, 2⟩ }

/-- A resource led on container 1, with a follower peer on container 3. -/
def followerOn3 : ResourceRuntime :=
  { ID := 106, peers := [⟨71, 1⟩, ⟨72, 3⟩], leaderPeer := some ⟨71, 1⟩ }

/-- Three containers of leader scores 2, 3, 1: an exact tie of the two
deviations from the average 2. Container 2 leads `ledOn2`, container 3 follows
`followerOn3`. -/
def tieRuntime : Runtime :=
  { GetContainers := [zoneContainer 1 "z1" 2, zoneContainer 2 "z1" 3, zoneContainer 3 "z1" 1],
    GetContainer := fun _ => none,
    RandLeaderResource := fun id => if id = 2 then some ledOn2 else none,
    RandFollowerResource := fun id => if id = 3 then some followerOn3 else none,
    GetResourceFollowerContainers := fun _ =>
      [zoneContainer 1 "z1" 2, zoneContainer 3 "z1" 1] }

/-- The cluster of `tieRuntime` in which no container has a follower resource to
offer. -/
def tieNoFollowerRuntime : Runtime :=
  { tieRuntime with RandFollowerResource := fun _ => none }

/-- The divergence of a container from candidate A (comparison index `indexA`)
is shallower than or equal to its divergence from candidate B (index `indexB`),
where no divergence (index -1) counts as the deepest: either the container does
not diverge from B at all, or it diverges from A, at an index not greater than
the index at which it diverges from B. -/
def shallowerOrEqual (indexA indexB : Int) : Prop :=
  indexB = -1 ∨ (indexA ≠ -1 ∧ indexA ≤ indexB)

instance (indexA indexB : Int) : Decidable (shallowerOrEqual indexA indexB) := by
  unfold shallowerOrEqual
  infer_instance

/-! ## Theorems -/

/-- C1 (behaviour of the code): the flag read by `isLeader` is inverted with
respect to the election callbacks. For every Prophet state, `isLeader()` is false
right after `enableLeader` and true right after `disableLeader`, because
`isLeader` compares the flag with 0 while `enableLeader` stores 1. -/
theorem isLeader_inverted (loaded : Runtime) (p : Prophet) :
    (Prophet.enableLeader loaded p).isLeader = false ∧
      (Prophet.disableLeader p).isLeader = true := by
  constructor
  · cases h : p.completeC <;>
      simp [Prophet.enableLeader, Prophet.notifyElectionComplete, Prophet.isLeader, h]
  · simp [Prophet.disableLeader, Prophet.isLeader]

/-- C2: `adujst` fills each of the twelve numeric and duration options with its
documented default when the option was zero, keeps the previous value when it
was not, and leaves `LocationLabels` unchanged. -/
theorem adujst_fills_defaults (c : Cfg) :
    c.adujst.MaxScheduleRetries
        = (if c.MaxScheduleRetries = 0 then 3 else c.MaxScheduleRetries) ∧
    c.adujst.MaxScheduleInterval
        = (if c.MaxScheduleInterval = 0 then Minute else c.MaxScheduleInterval) ∧
    c.adujst.MinScheduleInterval
        = (if c.MinScheduleInterval = 0 then 10 * Millisecond else c.MinScheduleInterval) ∧
    c.adujst.TimeoutWaitOperatorComplete
        = (if c.TimeoutWaitOperatorComplete = 0 then 5 * Minute
            else c.TimeoutWaitOperatorComplete) ∧
    c.adujst.MaxFreezeScheduleInterval
        = (if c.MaxFreezeScheduleInterval = 0 then 30 * Second
            else c.MaxFreezeScheduleInterval) ∧
    c.adujst.MaxAllowContainerDownDuration
        = (if c.MaxAllowContainerDownDuration = 0 then Hour
            else c.MaxAllowContainerDownDuration) ∧
    c.adujst.MaxRebalanceLeader
        = (if c.MaxRebalanceLeader = 0 then 16 else c.MaxRebalanceLeader) ∧
    c.adujst.MaxRebalanceReplica
        = (if c.MaxRebalanceReplica = 0 then 12 else c.MaxRebalanceReplica) ∧
    c.adujst.MaxScheduleReplica
        = (if c.MaxScheduleReplica = 0 then 16 else c.MaxScheduleReplica) ∧
    c.adujst.MaxLimitSnapshotsCount
        = (if c.MaxLimitSnapshotsCount = 0 then 3 else c.MaxLimitSnapshotsCount) ∧
    c.adujst.CountResourceReplicas
        = (if c.CountResourceReplicas = 0 then 3 else c.CountResourceReplicas) ∧
    c.adujst.MinAvailableStorageUsedRate
        = (if c.MinAvailableStorageUsedRate = 0 then 80
            else c.MinAvailableStorageUsedRate) ∧
    c.adujst.LocationLabels = c.LocationLabels := by
  have hms : Millisecond * 10 = 10 * Millisecond := Int.mul_comm _ _
  cases hs : c.schedulers <;>
  simp only [Cfg.adujst, apply_ite Cfg.MaxScheduleRetries, apply_ite Cfg.MaxLimitSnapshotsCount,
    apply_ite Cfg.schedulers, apply_ite Cfg.MaxScheduleInterval, apply_ite Cfg.MinScheduleInterval,
    apply_ite Cfg.TimeoutWaitOperatorComplete, apply_ite Cfg.MaxFreezeScheduleInterval,
    apply_ite Cfg.MaxAllowContainerDownDuration, apply_ite Cfg.MaxRebalanceLeader,
    apply_ite Cfg.MaxRebalanceReplica, apply_ite Cfg.MaxScheduleReplica,
    apply_ite Cfg.CountResourceReplicas, apply_ite Cfg.MinAvailableStorageUsedRate,
    apply_ite Cfg.LocationLabels, ite_self, hs, hms, and_self]

/-- The durations of the configuration table, in nanoseconds. -/
theorem duration_constants :
    Minute = 60000000000 ∧ 10 * Millisecond = 10000000 ∧ 5 * Minute = 300000000000 ∧
      30 * Second = 30000000000 ∧ Hour = 3600000000000 := by
  decide

/-- The loop of `getDistinctScore` started from any accumulator adds the
contributions of the containers, in order. -/
theorem getDistinctScore_fold
    (compareLocation : ContainerRuntime → ContainerRuntime → List String → Int)
    (labels : List String) (other : ContainerRuntime) (containers : List ContainerRuntime) :
    ∀ acc : ℚ,
      containers.foldl
          (fun score s =>
            if s.ID = other.ID then score
            else
              let index := compareLocation s other labels
              if index ≠ -1 then
                score + replicaBaseScore ^ ((labels.length : Int) - index - 1)
              else score)
          acc
        = acc + (containers.map (distinctContribution compareLocation labels other)).sum := by
  induction containers with
  | nil => intro acc; simp
  | cons s rest ih =>
    intro acc
    rw [List.foldl_cons, ih]
    by_cases hid : s.ID = other.ID
    · simp [distinctContribution, hid]
    · by_cases hidx : compareLocation s other labels = -1
      · simp [distinctContribution, hid, hidx]
      · simp [distinctContribution, hid, hidx, replicaBaseScore, add_assoc]

/-- The code's score is the sum of the per-container contributions. -/
theorem getDistinctScore_eq_contributions
    (compareLocation : ContainerRuntime → ContainerRuntime → List String → Int)
    (c : Cfg) (containers : List ContainerRuntime) (other : ContainerRuntime) :
    c.getDistinctScore compareLocation containers other
      = (containers.map (distinctContribution compareLocation c.LocationLabels other)).sum := by
  unfold Cfg.getDistinctScore
  simp only []
  rw [getDistinctScore_fold]
  simp

/-- The sum of contributions is the specified sum over the contributing
containers. -/
theorem contributions_eq_spec
    (compareLocation : ContainerRuntime → ContainerRuntime → List String → Int)
    (labels : List String) (other : ContainerRuntime) (containers : List ContainerRuntime) :
    (containers.map (distinctContribution compareLocation labels other)).sum
      = specDistinctScore compareLocation labels containers other := by
  unfold specDistinctScore
  induction containers with
  | nil => simp
  | cons s rest ih =>
    rw [List.map_cons, List.sum_cons, ih]
    by_cases hid : s.ID = other.ID
    · simp [distinctContribution, hid, List.filter_cons]
    · by_cases hidx : compareLocation s other labels = -1
      · simp [distinctContribution, hid, hidx, List.filter_cons]
      · simp [distinctContribution, hid, hidx, List.filter_cons]

/-- A contribution is never negative. -/
theorem distinctContribution_nonneg
    (compareLocation : ContainerRuntime → ContainerRuntime → List String → Int)
    (labels : List String) (other s : ContainerRuntime) :
    0 ≤ distinctContribution compareLocation labels other s := by
  unfold distinctContribution
  split_ifs
  · exact le_refl 0
  · exact le_of_lt (zpow_pos (by norm_num) _)

/-- Termwise comparison: if every container of S that counts for B (its ID
differs from the ID of B and its comparison index against B is not -1) also
counts for A, with a comparison index against A not greater than the one
against B, then the score of A is at least the score of B. -/
theorem distinct_score_monotone
    (compareLocation : ContainerRuntime → ContainerRuntime → List String → Int)
    (c : Cfg) (S : List ContainerRuntime) (A B : ContainerRuntime)
    (h : ∀ s ∈ S, s.ID ≠ B.ID → compareLocation s B c.LocationLabels ≠ -1 →
      s.ID ≠ A.ID ∧ compareLocation s A c.LocationLabels ≠ -1 ∧
        compareLocation s A c.LocationLabels ≤ compareLocation s B c.LocationLabels) :
    c.getDistinctScore compareLocation S A ≥ c.getDistinctScore compareLocation S B := by
  rw [getDistinctScore_eq_contributions, getDistinctScore_eq_contributions]
  apply List.sum_le_sum
  intro s hs
  by_cases hB : s.ID = B.ID ∨ compareLocation s B c.LocationLabels = -1
  · have h0 : distinctContribution compareLocation c.LocationLabels B s = 0 := by
      simp [distinctContribution, hB]
    rw [h0]
    exact distinctContribution_nonneg _ _ _ _
  · have hB1 : s.ID ≠ B.ID := fun e => hB (Or.inl e)
    have hB2 : compareLocation s B c.LocationLabels ≠ -1 := fun e => hB (Or.inr e)
    obtain ⟨hA1, hA2, hle⟩ := h s hs hB1 hB2
    simp only [distinctContribution, hA1, hA2, hB1, hB2, or_self, if_false]
    apply zpow_le_zpow_right₀ (by norm_num)
    omega

/-- The accumulation loop with a fixed divisor adds the sum of the scores
divided by that divisor. -/
theorem averageLeader_fold (n : ℚ) (containers : List ContainerRuntime) :
    ∀ acc : ℚ,
      containers.foldl (fun avg container => avg + container.LeaderScore / n) acc
        = acc + (containers.map (fun c => c.LeaderScore)).sum / n := by
  induction containers with
  | nil => intro acc; simp
  | cons c rest ih =>
    intro acc
    rw [List.foldl_cons, ih, List.map_cons, List.sum_cons, add_div, add_assoc]

/-- The accumulated `averageLeader` of the code is the average leader score of
all containers. -/
theorem averageLeader_eq_mean (containers : List ContainerRuntime) :
    averageLeader containers = meanLeaderScore containers := by
  unfold averageLeader meanLeaderScore
  rw [averageLeader_fold]
  simp

/-- A distance is never negative. -/
theorem leaderDistance_nonneg (c : Option ContainerRuntime) (average : ℚ) :
    0 ≤ leaderDistance c average := by
  cases c with
  | none => exact le_refl 0
  | some c => exact abs_nonneg _

/-- C6: for every runtime whose `GetContainers()` is empty and every selector and
filter list, `scheduleTransferLeader` returns `(nil, nil)` after the single call
`GetContainers` (no selector call, no resource query), and `Schedule` returns no
operator, leaves the scheduler unchanged and makes no selector call or resource
query either. -/
theorem empty_cluster_no_action (d : Deps) (l : balanceResourceLeaderScheduler)
    (rt : Runtime) (s : Selector) (filters : List Filter)
    (hempty : rt.GetContainers = []) :
    scheduleTransferLeader rt s filters = (Except.ok (none, none), [Call.GetContainers]) ∧
      (∀ call ∈ (scheduleTransferLeader rt s filters).2,
        call.isSelectorOrResourceQuery = false) ∧
      (l.Schedule d rt).result = Except.ok none ∧
      (l.Schedule d rt).scheduler = l ∧
      (∀ call ∈ (l.Schedule d rt).calls, call.isSelectorOrResourceQuery = false) := by
  have hcall : ∀ (s : Selector) (filters : List Filter),
      scheduleTransferLeader rt s filters = (Except.ok (none, none), [Call.GetContainers]) := by
    intro s filters
    simp [scheduleTransferLeader, hempty]
  refine ⟨hcall s filters, ?_, ?_, ?_, ?_⟩
  · rw [hcall]
    simp [Call.isSelectorOrResourceQuery]
  · simp [balanceResourceLeaderScheduler.Schedule, hcall]
  · simp [balanceResourceLeaderScheduler.Schedule, hcall]
  · simp [balanceResourceLeaderScheduler.Schedule, hcall, Call.isSelectorOrResourceQuery]

/-- C6, instance: the runtime loaded from an empty store, under the sample
scheduler. -/
theorem empty_cluster_no_action_witness :
    scheduleTransferLeader emptyRuntime (scoreSelector []) []
        = (Except.ok (none, none), [Call.GetContainers]) ∧
      (∀ call ∈ (scheduleTransferLeader emptyRuntime (scoreSelector []) []).2,
        call.isSelectorOrResourceQuery = false) ∧
      ((newBalanceResourceLeaderScheduler sampleDeps).Schedule sampleDeps emptyRuntime).result
        = Except.ok none ∧
      ((newBalanceResourceLeaderScheduler sampleDeps).Schedule sampleDeps emptyRuntime).scheduler
        = newBalanceResourceLeaderScheduler sampleDeps ∧
      (∀ call ∈
          ((newBalanceResourceLeaderScheduler sampleDeps).Schedule sampleDeps emptyRuntime).calls,
        call.isSelectorOrResourceQuery = false) :=
  empty_cluster_no_action sampleDeps (newBalanceResourceLeaderScheduler sampleDeps)
    emptyRuntime (scoreSelector []) [] rfl

/-- In a non-empty cluster, `scheduleTransferLeader` is its body after the
emptiness guard, with the accumulated average replaced by the mean. -/
theorem scheduleTransferLeader_nonempty (rt : Runtime) (s : Selector) (filters : List Filter)
    (hne : rt.GetContainers ≠ []) :
    scheduleTransferLeader rt s filters =
      (let containers := rt.GetContainers
       let mostLeaderContainer := s.SelectSource containers filters
       let leastLeaderContainer := s.SelectTarget containers filters
       let selected := [Call.GetContainers, Call.SelectSource containers filters,
         Call.SelectTarget containers filters]
       let mostLeaderDistance := leaderDistance mostLeaderContainer (meanLeaderScore containers)
       let leastLeaderDistance := leaderDistance leastLeaderContainer (meanLeaderScore containers)
       if mostLeaderDistance = 0 ∧ leastLeaderDistance = 0 then
         (Except.ok (none, none), selected)
       else if mostLeaderDistance > leastLeaderDistance then
         match mostLeaderContainer with
         | none => (Except.error GoPanic.nilDeref, selected)
         | some most =>
           match rt.RandLeaderResource most.ID with
           | none => (Except.ok (none, none), selected ++ [Call.RandLeaderResource most.ID])
           | some res =>
             let targetContainers := rt.GetResourceFollowerContainers res
             let calls := selected ++ [Call.RandLeaderResource most.ID,
               Call.GetResourceFollowerContainers res, Call.SelectTarget targetContainers []]
             match s.SelectTarget targetContainers [] with
             | none => (Except.ok (none, none), calls)
             | some target => (Except.ok (some res, res.GetContainerPeer target.ID), calls)
       else
         match leastLeaderContainer with
         | none => (Except.error GoPanic.nilDeref, selected)
         | some least =>
           match rt.RandFollowerResource least.ID with
           | none =>
             (Except.ok (none, none), selected ++ [Call.RandFollowerResource least.ID])
           | some res =>
             (Except.ok (some res, res.GetContainerPeer least.ID),
               selected ++ [Call.RandFollowerResource least.ID])) := by
  have hlen : ¬ rt.GetContainers.length = 0 := fun h => hne (List.length_eq_zero.mp h)
  unfold scheduleTransferLeader
  simp only [hlen, if_false, averageLeader_eq_mean]

/-- The skewed cluster: average 10/3, the score selector picks the score-10
container as source and a score-0 container as target, also among the
followers of the resource led by container 1. -/
theorem skewed_cluster_selection :
    meanLeaderScore skewedRuntime.GetContainers = 10 / 3 ∧
      (scoreSelector []).SelectSource skewedRuntime.GetContainers []
        = some (zoneContainer 1 "z1" 10) ∧
      (scoreSelector []).SelectTarget skewedRuntime.GetContainers []
        = some (zoneContainer 2 "z1" 0) ∧
      (scoreSelector []).SelectTarget (skewedRuntime.GetResourceFollowerContainers resource1) []
        = some (zoneContainer 2 "z1" 0) := by
  refine ⟨?_, ?_, ?_, ?_⟩
  · norm_num [meanLeaderScore, skewedRuntime, clusterRuntime, zoneContainer]
  · norm_num [scoreSelector, keepUnfiltered, highestLeaderScore, skewedRuntime,
      clusterRuntime, zoneContainer]
  · norm_num [scoreSelector, keepUnfiltered, lowestLeaderScore, skewedRuntime,
      clusterRuntime, zoneContainer]
  · norm_num [scoreSelector, keepUnfiltered, lowestLeaderScore, skewedRuntime,
      clusterRuntime, zoneContainer, resource1]

/-- C11: for every runtime, `Schedule` returns the transfer-leader operator for
`(res, newLeader)` if and only if `scheduleTransferLeader` returns the non-nil
`res` with `newLeader` and `shouldBalance(container of the leader peer of res,
container of newLeader, LeaderKind)` is true; and when `shouldBalance` returns
false for the transfer found, no operator is emitted. -/
theorem Schedule_emits_iff_found_and_not_vetoed (d : Deps)
    (l : balanceResourceLeaderScheduler) (rt : Runtime) (res : ResourceRuntime)
    (newLeader : Peer) :
    ((l.Schedule d rt).result
          = Except.ok (some (Operator.newTransferLeaderAggregationOp res newLeader)) ↔
        ((scheduleTransferLeader rt l.selector []).1 = Except.ok (some res, some newLeader) ∧
          ∃ leaderPeer, res.leaderPeer = some leaderPeer ∧
            d.shouldBalance (rt.GetContainer leaderPeer.ContainerID)
              (rt.GetContainer newLeader.ContainerID) ResourceKind.LeaderKind = true)) ∧
      (∀ leaderPeer,
        (scheduleTransferLeader rt l.selector []).1 = Except.ok (some res, some newLeader) →
        res.leaderPeer = some leaderPeer →
        d.shouldBalance (rt.GetContainer leaderPeer.ContainerID)
          (rt.GetContainer newLeader.ContainerID) ResourceKind.LeaderKind = false →
        (l.Schedule d rt).result = Except.ok none) := by
  unfold balanceResourceLeaderScheduler.Schedule
  rcases scheduleTransferLeader rt l.selector [] with ⟨r, calls⟩
  rcases r with e | ⟨found, peer⟩
  · simp
  · cases found with
    | none => simp
    | some found =>
      simp only []
      cases hlp : found.leaderPeer with
      | none =>
        constructor
        · constructor
          · intro h; simp at h
          · rintro ⟨h, lp, hlp2, -⟩
            simp only [Except.ok.injEq, Prod.mk.injEq, Option.some.injEq] at h
            rw [← h.1, hlp] at hlp2
            simp at hlp2
        · intro lp h hlp2 _
          simp only [Except.ok.injEq, Prod.mk.injEq, Option.some.injEq] at h
          rw [← h.1, hlp] at hlp2
          simp at hlp2
      | some lp =>
        cases peer with
        | none => simp
        | some peer =>
          simp only [balanceResourceLeaderScheduler.ResourceKind]
          by_cases hb : d.shouldBalance (rt.GetContainer lp.ContainerID)
              (rt.GetContainer peer.ContainerID) ResourceKind.LeaderKind = true
          · simp only [hb, not_true_eq_false, if_false]
            constructor
            · constructor
              · intro h
                simp only [Except.ok.injEq, Option.some.injEq,
                  Operator.newTransferLeaderAggregationOp.injEq] at h
                obtain ⟨h1, h2⟩ := h
                subst h1 h2
                exact ⟨rfl, lp, hlp, hb⟩
              · rintro ⟨h, -⟩
                simp only [Except.ok.injEq, Prod.mk.injEq, Option.some.injEq] at h
                obtain ⟨h1, h2⟩ := h
                subst h1 h2
                rfl
            · intro lp2 h hlp2 hveto
              simp only [Except.ok.injEq, Prod.mk.injEq, Option.some.injEq] at h
              obtain ⟨h1, h2⟩ := h
              subst h1 h2
              rw [hlp] at hlp2
              cases hlp2
              rw [hb] at hveto
              cases hveto
          · simp only [hb, not_false_eq_true, if_true]
            constructor
            · constructor
              · intro h; simp at h
              · rintro ⟨h, lp2, hlp2, hb2⟩
                simp only [Except.ok.injEq, Prod.mk.injEq, Option.some.injEq] at h
                obtain ⟨h1, h2⟩ := h
                subst h1 h2
                rw [hlp] at hlp2
                cases hlp2
                exact absurd hb2 hb
            · intro _ _ _ _
              rfl

/-- C12: for every runtime and scheduler state, a `Schedule` call sets the limit
to `adjustBalanceLimit(rt, LeaderKind)` when it returns an operator and leaves
the limit unchanged otherwise (no transfer found, transfer vetoed, or panic);
the selector is never changed. -/
theorem Schedule_limit_only_on_success (d : Deps) (l : balanceResourceLeaderScheduler)
    (rt : Runtime) :
    (l.Schedule d rt).scheduler.selector = l.selector ∧
      (l.Schedule d rt).scheduler.limit
        = (match (l.Schedule d rt).result with
          | Except.ok (some _) => d.adjustBalanceLimit rt ResourceKind.LeaderKind
          | _ => l.limit) := by
  unfold balanceResourceLeaderScheduler.Schedule
  rcases scheduleTransferLeader rt l.selector [] with ⟨r, calls⟩
  rcases r with e | ⟨found, peer⟩
  · exact ⟨rfl, rfl⟩
  · cases found with
    | none => exact ⟨rfl, rfl⟩
    | some found =>
      simp only []
      cases found.leaderPeer with
      | none => exact ⟨rfl, rfl⟩
      | some lp =>
        cases peer with
        | none => exact ⟨rfl, rfl⟩
        | some peer =>
          simp only []
          split_ifs
          · exact ⟨rfl, rfl⟩
          · exact ⟨rfl, rfl⟩

/-- The cluster with leader scores 4, 1, 4 seen through the selector of the
sample scheduler: average 3, source container 1, target container 2. -/
theorem starved_cluster_sample_selection (rt : Runtime)
    (hrt : rt.GetContainers = starvedRuntime.GetContainers) :
    meanLeaderScore rt.GetContainers = 3 ∧
      (newBalanceResourceLeaderScheduler sampleDeps).selector.SelectSource rt.GetContainers []
        = some (zoneContainer 1 "z1" 4) ∧
      (newBalanceResourceLeaderScheduler sampleDeps).selector.SelectTarget rt.GetContainers []
        = some (zoneContainer 2 "z1" 1) := by
  rw [hrt]
  refine ⟨?_, ?_, ?_⟩
  · norm_num [meanLeaderScore, starvedRuntime, clusterRuntime, zoneContainer]
  · norm_num [newBalanceResourceLeaderScheduler, sampleDeps, scoreSelector, keepUnfiltered,
      highestLeaderScore, starvedRuntime, clusterRuntime, zoneContainer]
  · norm_num [newBalanceResourceLeaderScheduler, sampleDeps, scoreSelector, keepUnfiltered,
      lowestLeaderScore, starvedRuntime, clusterRuntime, zoneContainer]

/-- On a runtime over the containers of the 4, 1, 4 cluster, the sample
scheduler takes the transfer-in direction and returns what
`RandFollowerResource(2)` picks, with its peer on container 2. -/
theorem starved_cluster_sample_transfer (rt : Runtime)
    (hrt : rt.GetContainers = starvedRuntime.GetContainers) (res : ResourceRuntime)
    (hres : rt.RandFollowerResource 2 = some res) :
    (scheduleTransferLeader rt (newBalanceResourceLeaderScheduler sampleDeps).selector []).1
      = Except.ok (some res, res.GetContainerPeer 2) := by
  have hsel := starved_cluster_sample_selection rt hrt
  have hne : rt.GetContainers ≠ [] := by
    rw [hrt]; simp [starvedRuntime, clusterRuntime]
  rw [scheduleTransferLeader_nonempty rt _ [] hne]
  simp only [hsel.1, hsel.2.1, hsel.2.2]
  have hz : ¬ (leaderDistance (some (zoneContainer 1 "z1" 4)) 3 = 0 ∧
      leaderDistance (some (zoneContainer 2 "z1" 1)) 3 = 0) := by
    norm_num [leaderDistance, zoneContainer]
  have hd : ¬ (leaderDistance (some (zoneContainer 1 "z1" 4)) 3
      > leaderDistance (some (zoneContainer 2 "z1" 1)) 3) := by
    norm_num [leaderDistance, zoneContainer, abs_lt, lt_abs, abs_le, le_abs]
  simp only [hz, hd, if_false]
  have hid : (zoneContainer 2 "z1" 1).ID = 2 := rfl
  simp only [hid, hres]

/-- C13 (behaviour of the code at the failing inputs): `Schedule` dereferences
`newLeader` and `res.leaderPeer` without a nil check. In the 4, 1, 4 cluster,
when the resource picked for container 2 has no peer on container 2
(`GetContainerPeer` yields nil), and when the resource picked has no recorded
leader peer, the call ends in a nil dereference instead of returning no
operator. -/
theorem Schedule_panics_on_nil_peer :
    ((newBalanceResourceLeaderScheduler sampleDeps).Schedule sampleDeps
        inconsistentRuntime).result = Except.error GoPanic.nilDeref ∧
      ((newBalanceResourceLeaderScheduler sampleDeps).Schedule sampleDeps
        leaderlessRuntime).result = Except.error GoPanic.nilDeref := by
  constructor
  · have h := starved_cluster_sample_transfer inconsistentRuntime rfl
      { ID := 102, peers := [⟨31, 1⟩, ⟨33, 3⟩], leaderPeer := some ⟨31, 1⟩ } rfl
    unfold balanceResourceLeaderScheduler.Schedule
    rcases hs : scheduleTransferLeader inconsistentRuntime
      (newBalanceResourceLeaderScheduler sampleDeps).selector [] with ⟨r, calls⟩
    rw [hs] at h
    simp only at h
    subst h
    simp [ResourceRuntime.GetContainerPeer]
  · have h := starved_cluster_sample_transfer leaderlessRuntime rfl
      { ID := 101, peers := [⟨21, 1⟩, ⟨22, 2⟩, ⟨23, 3⟩], leaderPeer := none } rfl
    unfold balanceResourceLeaderScheduler.Schedule
    rcases hs : scheduleTransferLeader leaderlessRuntime
      (newBalanceResourceLeaderScheduler sampleDeps).selector [] with ⟨r, calls⟩
    rw [hs] at h
    simp only at h
    subst h
    simp [ResourceRuntime.GetContainerPeer]

/-- C14: for every Prophet with own node `n` and every leader node `m`,
`isMatchLeader(m)` is true if and only if `m` is non-nil, `m.ID = n.ID` and
`m.Name = n.Name`; the address is ignored: replacing the address of `m` does not
change the answer. -/
theorem isMatchLeader_iff_id_and_name (p : Prophet) (m : Option Node) :
    (p.isMatchLeader m = true ↔
        ∃ l, m = some l ∧ l.ID = p.node.ID ∧ l.Name = p.node.Name) ∧
      (∀ (l : Node) (addr : String),
        p.isMatchLeader (some { l with Addr := addr }) = p.isMatchLeader (some l)) := by
  constructor
  · cases m with
    | none => simp [Prophet.isMatchLeader]
    | some l =>
      simp only [Prophet.isMatchLeader, Bool.and_eq_true, decide_eq_true_eq, Option.some.injEq,
        exists_eq_left']
      constructor
      · rintro ⟨h1, h2⟩; exact ⟨h2.symm, h1.symm⟩
      · rintro ⟨h1, h2⟩; exact ⟨h2.symm, h1.symm⟩
  · intro l addr
    rfl

/-- One iteration returns exactly when the context is cancelled. -/
theorem startLeaderLoopIteration_control (leaseTTL : Int) (p : Prophet) (ctxDone : Bool)
    (store : StoreAnswers) :
    (p.startLeaderLoopIteration leaseTTL ctxDone store).control
      = (if ctxDone then LoopControl.exited else LoopControl.again) := by
  unfold Prophet.startLeaderLoopIteration
  cases ctxDone with
  | true => rfl
  | false =>
    simp only [Bool.false_eq_true, if_false]
    rcases store.GetCurrentLeader with e | leader
    · rfl
    · cases leader with
      | none => rfl
      | some leader =>
        simp only []
        split_ifs
        · cases store.ResignLeader <;> rfl
        · rfl

/-- The task terminates exactly when one of its iterations finds the context
cancelled, and the number of completed iterations is the number of iterations
before the first cancellation. -/
theorem startLeaderLoopTask_run (leaseTTL : Int) (inputs : List (Bool × StoreAnswers)) :
    ∀ p : Prophet,
      (p.startLeaderLoopTask leaseTTL inputs).terminated = inputs.any (fun i => i.1) ∧
        (p.startLeaderLoopTask leaseTTL inputs).iterations
          = (inputs.takeWhile (fun i => !i.1)).length := by
  induction inputs with
  | nil => intro p; exact ⟨rfl, rfl⟩
  | cons input rest ih =>
    intro p
    obtain ⟨ctxDone, store⟩ := input
    have hc := startLeaderLoopIteration_control leaseTTL p ctxDone store
    unfold Prophet.startLeaderLoopTask
    cases ctxDone with
    | true =>
      simp only [if_true] at hc
      simp [hc]
    | false =>
      simp only [Bool.false_eq_true, if_false] at hc
      have h := ih (p.startLeaderLoopIteration leaseTTL false store).prophet
      simp [hc, h.1, h.2]

/-- C15: in `startLeaderLoop`, for every outcome of `GetCurrentLeader`,
`ResignLeader` and `CampaignLeader` (errors included), an iteration proceeds to
another iteration unless the context is cancelled: the iteration returns if and
only if the context is done. Over any sequence of iterations the task
terminates exactly when some iteration finds the context cancelled, and every
iteration before that one runs to its end. -/
theorem store_errors_never_terminate_loop (leaseTTL : Int) (p : Prophet) (ctxDone : Bool)
    (store : StoreAnswers) (inputs : List (Bool × StoreAnswers)) :
    ((p.startLeaderLoopIteration leaseTTL ctxDone store).control = LoopControl.exited ↔
        ctxDone = true) ∧
      ((p.startLeaderLoopIteration leaseTTL false store).control = LoopControl.again) ∧
      ((p.startLeaderLoopTask leaseTTL inputs).terminated = inputs.any (fun i => i.1)) ∧
      ((p.startLeaderLoopTask leaseTTL inputs).iterations
        = (inputs.takeWhile (fun i => !i.1)).length) := by
  refine ⟨?_, ?_, (startLeaderLoopTask_run leaseTTL inputs p).1,
    (startLeaderLoopTask_run leaseTTL inputs p).2⟩
  · rw [startLeaderLoopIteration_control]
    cases ctxDone <;> simp
  · rw [startLeaderLoopIteration_control]
    simp

/-- C16: for every election group and identities, `ChangeLeaderTo(group, fromID,
toID)` returns `NotLeaderError` and leaves the election state as it was whenever
`fromID` is not the current leader of `group`, and succeeds when `fromID` is the
current leader. -/
theorem ChangeLeaderTo_rejects_non_leader (st : ElectorState) (group : Nat)
    (fromID toID : String) :
    (st.leaders group ≠ some fromID →
        st.ChangeLeaderTo group fromID toID
          = (Except.error ElectorError.NotLeaderError, st)) ∧
      (st.leaders group = some fromID →
        (st.ChangeLeaderTo group fromID toID).1 = Except.ok ()) := by
  constructor
  · intro h
    simp [ElectorState.ChangeLeaderTo, h]
  · intro h
    simp [ElectorState.ChangeLeaderTo, h]

/-- C16, instance (`TestChangeLeaderTo`): with `"1"` leading group 0,
`ChangeLeaderTo(0, "2", "3")` fails and changes nothing, and
`ChangeLeaderTo(0, "1", "2")` succeeds. -/
theorem ChangeLeaderTo_rejects_non_leader_witness :
    testElectorState.ChangeLeaderTo 0 "2" "3"
        = (Except.error ElectorError.NotLeaderError, testElectorState) ∧
      (testElectorState.ChangeLeaderTo 0 "1" "2").1 = Except.ok () :=
  ⟨(ChangeLeaderTo_rejects_non_leader testElectorState 0 "2" "3").1
      (by simp [testElectorState]),
    (ChangeLeaderTo_rejects_non_leader testElectorState 0 "1" "2").2
      (by simp [testElectorState])⟩

/-- The leadership callbacks never write `p.leader`. -/
theorem runCallbacks_leader (callbacks : List LeaderCallback) :
    ∀ p : Prophet, (p.runCallbacks callbacks).leader = p.leader := by
  induction callbacks with
  | nil => intro p; rfl
  | cons cb rest ih =>
    intro p
    cases cb with
    | enableLeader loaded =>
      simp only [Prophet.runCallbacks]
      rw [ih]
      cases h : p.completeC <;>
        simp [Prophet.enableLeader, Prophet.notifyElectionComplete, h]
    | disableLeader =>
      simp only [Prophet.runCallbacks]
      rw [ih]
      rfl

/-- C19: `scheduleTransferLeader` never dereferences a nil selected container.
For every runtime, selector (also one that returns nil for source, for target or
for both) and filter list, the call returns a pair and does not panic; the
condition of the transfer-out branch (source distance strictly greater) implies
that `SelectSource` returned a container, and the condition of the transfer-in
branch (distances not both zero, source distance not strictly greater) implies
that `SelectTarget` returned a container. -/
theorem scheduleTransferLeader_no_nil_deref (rt : Runtime) (s : Selector)
    (filters : List Filter) :
    (∃ r, (scheduleTransferLeader rt s filters).1 = Except.ok r) ∧
      (leaderDistance (s.SelectSource rt.GetContainers filters)
            (averageLeader rt.GetContainers)
          > leaderDistance (s.SelectTarget rt.GetContainers filters)
            (averageLeader rt.GetContainers) →
        ∃ most, s.SelectSource rt.GetContainers filters = some most) ∧
      (¬ (leaderDistance (s.SelectSource rt.GetContainers filters)
              (averageLeader rt.GetContainers) = 0 ∧
            leaderDistance (s.SelectTarget rt.GetContainers filters)
              (averageLeader rt.GetContainers) = 0) →
        ¬ (leaderDistance (s.SelectSource rt.GetContainers filters)
              (averageLeader rt.GetContainers)
            > leaderDistance (s.SelectTarget rt.GetContainers filters)
              (averageLeader rt.GetContainers)) →
        ∃ least, s.SelectTarget rt.GetContainers filters = some least) := by
  have hout : leaderDistance (s.SelectSource rt.GetContainers filters)
        (averageLeader rt.GetContainers)
      > leaderDistance (s.SelectTarget rt.GetContainers filters)
        (averageLeader rt.GetContainers) →
      ∃ most, s.SelectSource rt.GetContainers filters = some most := by
    intro hdom
    rcases hs : s.SelectSource rt.GetContainers filters with _ | most
    · rw [hs] at hdom
      exact absurd (lt_of_le_of_lt (leaderDistance_nonneg _ _) hdom) (lt_irrefl _)
    · exact ⟨most, rfl⟩
  have hin : ¬ (leaderDistance (s.SelectSource rt.GetContainers filters)
          (averageLeader rt.GetContainers) = 0 ∧
        leaderDistance (s.SelectTarget rt.GetContainers filters)
          (averageLeader rt.GetContainers) = 0) →
      ¬ (leaderDistance (s.SelectSource rt.GetContainers filters)
          (averageLeader rt.GetContainers)
        > leaderDistance (s.SelectTarget rt.GetContainers filters)
          (averageLeader rt.GetContainers)) →
      ∃ least, s.SelectTarget rt.GetContainers filters = some least := by
    intro hz hd
    rcases ht : s.SelectTarget rt.GetContainers filters with _ | least
    · exfalso
      rw [ht] at hz hd
      have h0 : leaderDistance (none : Option ContainerRuntime)
          (averageLeader rt.GetContainers) = 0 := rfl
      rw [h0] at hz hd
      exact hz ⟨le_antisymm (le_of_not_gt hd) (leaderDistance_nonneg _ _), rfl⟩
    · exact ⟨least, rfl⟩
  refine ⟨?_, hout, hin⟩
  unfold scheduleTransferLeader
  simp only []
  split_ifs with hlen hz hd
  · exact ⟨_, rfl⟩
  · exact ⟨_, rfl⟩
  · obtain ⟨most, hs⟩ := hout hd
    simp only [hs]
    rcases rt.RandLeaderResource most.ID with _ | res
    · exact ⟨_, rfl⟩
    · simp only []
      rcases s.SelectTarget (rt.GetResourceFollowerContainers res) [] with _ | target
      · exact ⟨_, rfl⟩
      · exact ⟨_, rfl⟩
  · obtain ⟨least, ht⟩ := hin hz hd
    simp only [ht]
    rcases rt.RandFollowerResource least.ID with _ | res
    · exact ⟨_, rfl⟩
    · exact ⟨_, rfl⟩

/-- C19, instance: on the skewed cluster a selector that returns nil for both
source and target makes both distances zero, and the call returns `(nil, nil)`. -/
theorem scheduleTransferLeader_no_nil_deref_witness :
    (scheduleTransferLeader skewedRuntime nilSelector []).1 = Except.ok (none, none) ∧
      ∃ r, (scheduleTransferLeader skewedRuntime nilSelector []).1 = Except.ok r :=
  ⟨by simp [scheduleTransferLeader, nilSelector, leaderDistance, skewedRuntime, clusterRuntime],
    (scheduleTransferLeader_no_nil_deref skewedRuntime nilSelector []).1⟩

/-- On the skewed cluster (leader scores 10, 0, 0) the sample scheduler finds the
transfer of `resource1` to its peer on container 2. -/
theorem skewed_cluster_sample_transfer :
    (scheduleTransferLeader skewedRuntime
        (newBalanceResourceLeaderScheduler sampleDeps).selector []).1
      = Except.ok (some resource1, some ⟨12, 2⟩) := by
  have hsrc : (newBalanceResourceLeaderScheduler sampleDeps).selector.SelectSource
      skewedRuntime.GetContainers [] = some (zoneContainer 1 "z1" 10) := by
    norm_num [newBalanceResourceLeaderScheduler, sampleDeps, scoreSelector, keepUnfiltered,
      highestLeaderScore, skewedRuntime, clusterRuntime, zoneContainer]
  have htgt : (newBalanceResourceLeaderScheduler sampleDeps).selector.SelectTarget
      skewedRuntime.GetContainers [] = some (zoneContainer 2 "z1" 0) := by
    norm_num [newBalanceResourceLeaderScheduler, sampleDeps, scoreSelector, keepUnfiltered,
      lowestLeaderScore, skewedRuntime, clusterRuntime, zoneContainer]
  have hfol : (newBalanceResourceLeaderScheduler sampleDeps).selector.SelectTarget
      (skewedRuntime.GetResourceFollowerContainers resource1) []
        = some (zoneContainer 2 "z1" 0) := by
    norm_num [newBalanceResourceLeaderScheduler, sampleDeps, scoreSelector, keepUnfiltered,
      lowestLeaderScore, skewedRuntime, clusterRuntime, zoneContainer, resource1]
  have hne : skewedRuntime.GetContainers ≠ [] := by simp [skewedRuntime, clusterRuntime]
  rw [scheduleTransferLeader_nonempty skewedRuntime _ [] hne]
  simp only [hsrc, htgt, skewed_cluster_selection.1]
  have hz : ¬ (leaderDistance (some (zoneContainer 1 "z1" 10)) (10 / 3) = 0 ∧
      leaderDistance (some (zoneContainer 2 "z1" 0)) (10 / 3) = 0) := by
    norm_num [leaderDistance, zoneContainer]
  have hd : leaderDistance (some (zoneContainer 1 "z1" 10)) (10 / 3)
      > leaderDistance (some (zoneContainer 2 "z1" 0)) (10 / 3) := by
    norm_num [leaderDistance, zoneContainer, abs_lt, lt_abs]
  simp only [hz, hd, if_false, if_true]
  have hid : (zoneContainer 1 "z1" 10).ID = 1 := rfl
  have hrand : skewedRuntime.RandLeaderResource 1 = some resource1 := rfl
  simp only [hid, hrand, hfol]
  rfl

/-- C11, instance: on the skewed cluster the sample scheduler finds the transfer
of `resource1` to its peer on container 2, the veto does not apply (the target
scores 0, the source 10), and the operator is emitted. -/
theorem Schedule_emits_iff_found_and_not_vetoed_witness :
    ((newBalanceResourceLeaderScheduler sampleDeps).Schedule sampleDeps skewedRuntime).result
      = Except.ok (some (Operator.newTransferLeaderAggregationOp resource1 ⟨12, 2⟩)) :=
  (Schedule_emits_iff_found_and_not_vetoed sampleDeps
      (newBalanceResourceLeaderScheduler sampleDeps) skewedRuntime resource1 ⟨12, 2⟩).1.mpr
    ⟨skewed_cluster_sample_transfer, ⟨11, 1⟩, rfl, by
      norm_num [sampleDeps, skewedRuntime, clusterRuntime, zoneContainer]⟩

/-- The sample scheduler emits the operator on the skewed cluster (evaluated on
the body of `Schedule`). -/
theorem skewed_cluster_sample_schedule :
    ((newBalanceResourceLeaderScheduler sampleDeps).Schedule sampleDeps skewedRuntime).result
      = Except.ok (some (Operator.newTransferLeaderAggregationOp resource1 ⟨12, 2⟩)) := by
  have h := skewed_cluster_sample_transfer
  unfold balanceResourceLeaderScheduler.Schedule
  rcases hs : scheduleTransferLeader skewedRuntime
    (newBalanceResourceLeaderScheduler sampleDeps).selector [] with ⟨r, calls⟩
  rw [hs] at h
  simp only at h
  subst h
  norm_num [resource1, sampleDeps, skewedRuntime, clusterRuntime, zoneContainer]

/-- C12, instance: the sample scheduler starts with limit 1; the call on the
skewed cluster emits an operator and sets the limit to
`adjustBalanceLimit = 3`, keeping the selector. -/
theorem Schedule_limit_only_on_success_witness :
    ((newBalanceResourceLeaderScheduler sampleDeps).Schedule sampleDeps
        skewedRuntime).scheduler.selector
        = (newBalanceResourceLeaderScheduler sampleDeps).selector ∧
      ((newBalanceResourceLeaderScheduler sampleDeps).Schedule sampleDeps
        skewedRuntime).scheduler.limit = 3 := by
  have h := Schedule_limit_only_on_success sampleDeps
    (newBalanceResourceLeaderScheduler sampleDeps) skewedRuntime
  refine ⟨h.1, ?_⟩
  rw [h.2, skewed_cluster_sample_schedule]
  simp [sampleDeps, skewedRuntime, clusterRuntime]

/-- The fuel-bounded logarithm brackets its argument between two consecutive
powers of two. -/
theorem log2Fuel_spec : ∀ fuel n : Nat, n ≤ fuel → 1 ≤ n →
    2 ^ log2Fuel fuel n ≤ n ∧ n < 2 ^ (log2Fuel fuel n + 1) := by
  intro fuel
  induction fuel with
  | zero => intro n h1 h2; omega
  | succ fuel ih =>
    intro n hle hpos
    unfold log2Fuel
    by_cases h2 : n < 2
    · simp only [h2, if_true]
      constructor
      · simpa using hpos
      · simpa using h2
    · simp only [h2, if_false]
      have hhalf : n / 2 ≤ fuel := by omega
      have hhalf1 : 1 ≤ n / 2 := by omega
      obtain ⟨hlo, hhi⟩ := ih (n / 2) hhalf hhalf1
      rw [pow_succ] at hhi
      constructor
      · rw [pow_succ]; omega
      · rw [pow_succ, pow_succ]; omega

/-- `natLog2 n` is the exponent of the largest power of two not above `n`. -/
theorem natLog2_spec (n : Nat) (hpos : 1 ≤ n) :
    2 ^ natLog2 n ≤ n ∧ n < 2 ^ (natLog2 n + 1) :=
  log2Fuel_spec n n (le_refl n) hpos

/-- The binade of a positive rational brackets it between two consecutive powers
of two. -/
theorem binade_spec (a : ℚ) (ha : 0 < a) :
    (2 : ℚ) ^ binade a ≤ a ∧ a < (2 : ℚ) ^ (binade a + 1) := by
  have hnum : 0 < a.num := Rat.num_pos.mpr ha
  have hn1 : 1 ≤ a.num.natAbs := by omega
  have hd1 : 1 ≤ a.den := a.den_pos
  obtain ⟨hnlo, hnhi⟩ := natLog2_spec a.num.natAbs hn1
  obtain ⟨hdlo, hdhi⟩ := natLog2_spec a.den hd1
  have hcast : (a.num.natAbs : ℚ) = (a.num : ℚ) := by
    rw [Nat.cast_natAbs, abs_of_pos (by exact_mod_cast hnum)]
  have ha_eq : a = (a.num.natAbs : ℚ) / (a.den : ℚ) := by
    rw [hcast]; exact (Rat.num_div_den a).symm
  have hdpos : (0 : ℚ) < a.den := by exact_mod_cast hd1
  have hnloq : (2 : ℚ) ^ natLog2 a.num.natAbs ≤ a.num.natAbs := by exact_mod_cast hnlo
  have hnhiq : (a.num.natAbs : ℚ) < (2 : ℚ) ^ (natLog2 a.num.natAbs + 1) := by
    exact_mod_cast hnhi
  have hdloq : (2 : ℚ) ^ natLog2 a.den ≤ a.den := by exact_mod_cast hdlo
  have hdhiq : (a.den : ℚ) < (2 : ℚ) ^ (natLog2 a.den + 1) := by exact_mod_cast hdhi
  have hsub : ∀ x y : ℕ, (2 : ℚ) ^ ((x : Int) - (y : Int)) = (2 : ℚ) ^ x / (2 : ℚ) ^ y := by
    intro x y
    rw [zpow_sub₀ (by norm_num : (2 : ℚ) ≠ 0), zpow_natCast, zpow_natCast]
  unfold binade
  simp only []
  generalize natLog2 a.num.natAbs = ln at *
  generalize natLog2 a.den = ld at *
  generalize (a.num.natAbs : ℚ) = x at *
  generalize (a.den : ℚ) = y at *
  split_ifs with hc
  · refine ⟨hc, ?_⟩
    have : ((ln : Int) - (ld : Int) + 1) = (((ln + 1 : ℕ) : Int) - (ld : Int)) := by
      push_cast; ring
    rw [this, hsub, ha_eq]
    apply lt_of_lt_of_le (div_lt_div_of_pos_right hnhiq hdpos)
    exact div_le_div_of_nonneg_left (by positivity) (by positivity) hdloq
  · constructor
    · have : ((ln : Int) - (ld : Int) - 1) = ((ln : Int) - ((ld + 1 : ℕ) : Int)) := by
        push_cast; ring
      rw [this, hsub, ha_eq]
      apply le_trans (div_le_div_of_nonneg_right hnloq (by positivity))
      have hxpos : (0 : ℚ) ≤ x := le_trans (by positivity) hnloq
      exact div_le_div_of_nonneg_left hxpos hdpos (le_of_lt hdhiq)
    · simpa using lt_of_not_le hc

/-- An integer is its own nearest integer. -/
theorem roundHalfEven_intCast (z : Int) : roundHalfEven (z : ℚ) = z := by
  unfold roundHalfEven
  simp

/-- Every natural number up to `2 ^ 53` is a `float64`: rounding leaves it
unchanged. -/
theorem F64.round_natCast (n : ℕ) (hn : (n : ℚ) ≤ 2 ^ 53) :
    F64.round (n : ℚ) = F64.finite n := by
  unfold F64.round
  by_cases h0 : (n : ℚ) = 0
  · simp [h0]
  · have hpos : (0 : ℚ) < n := lt_of_le_of_ne (by positivity) (Ne.symm h0)
    have hn1 : (1 : ℚ) ≤ n := by
      have : 0 < n := by exact_mod_cast hpos
      exact_mod_cast this
    simp only [h0, if_false, abs_of_pos hpos]
    obtain ⟨hlo, hhi⟩ := binade_spec (n : ℚ) hpos
    have h2 : (1 : ℚ) < 2 := by norm_num
    have he53 : binade (n : ℚ) ≤ 53 := by
      have : (2 : ℚ) ^ binade (n : ℚ) ≤ (2 : ℚ) ^ (53 : Int) := by
        refine le_trans hlo ?_
        have h53 : (2 : ℚ) ^ (53 : Int) = 2 ^ (53 : ℕ) := by norm_num
        rw [h53]; exact hn
      exact (zpow_le_zpow_iff_right₀ h2).mp this
    have he0 : 0 ≤ binade (n : ℚ) := by
      have : (2 : ℚ) ^ (0 : Int) < (2 : ℚ) ^ (binade (n : ℚ) + 1) := by
        simpa using lt_of_le_of_lt hn1 hhi
      have := (zpow_lt_zpow_iff_right₀ h2).mp this
      omega
    have hq : max (binade (n : ℚ) - 52) (-1074) = binade (n : ℚ) - 52 := by
      apply max_eq_left; omega
    rw [hq]
    have hint : ∃ z : Int, (n : ℚ) / 2 ^ (binade (n : ℚ) - 52) = (z : ℚ) := by
      by_cases h52 : binade (n : ℚ) ≤ 52
      · refine ⟨(n : Int) * 2 ^ (52 - binade (n : ℚ)).toNat, ?_⟩
        have : (binade (n : ℚ) - 52) = -((52 - binade (n : ℚ)).toNat : Int) := by omega
        rw [this, zpow_neg, zpow_natCast]
        push_cast
        field_simp
      · have h53 : binade (n : ℚ) = 53 := by omega
        rw [h53] at hlo
        have h53q : (2 : ℚ) ^ (53 : Int) = 2 ^ (53 : ℕ) := by norm_num
        rw [h53q] at hlo
        have hn53 : (n : ℚ) = 2 ^ 53 := le_antisymm hn hlo
        refine ⟨2 ^ 52, ?_⟩
        rw [h53, hn53]
        norm_num
    obtain ⟨z, hz⟩ := hint
    rw [hz, roundHalfEven_intCast, ← hz]
    have h2ne : (2 : ℚ) ^ (binade (n : ℚ) - 52) ≠ 0 := by positivity
    rw [div_mul_cancel₀ _ h2ne]
    have hlt : ¬ ((2 : ℚ) ^ (1024 : Int) ≤ n) := by
      rw [not_le]
      refine lt_of_le_of_lt hn ?_
      norm_num
    have hneg : ¬ ((n : ℚ) < 0) := not_lt.mpr (le_of_lt hpos)
    simp only [hlt, hneg, if_false]

/-- The `float64` sum of two natural numbers whose exact sum is at most `2 ^ 53`
is the exact sum. -/
theorem F64.add_natCast (m n : ℕ) (h : ((m + n : ℕ) : ℚ) ≤ 2 ^ 53) :
    F64.add (F64.finite m) (F64.finite n) = F64.finite ((m + n : ℕ) : ℚ) := by
  have hcast : (m : ℚ) + (n : ℚ) = ((m + n : ℕ) : ℚ) := by push_cast; rfl
  show F64.round ((m : ℚ) + (n : ℚ)) = _
  rw [hcast]
  exact F64.round_natCast (m + n) h

/-- The loop of the `float64` `getDistinctScore`, started from a natural number,
computes the exact sum as long as that sum is at most `2 ^ 53`: this needs every
comparison index to lie below the number of labels and `math.Pow` to return the
exact power whenever the power is at most `2 ^ 53`. -/
theorem ieee_getDistinctScore_fold (mathPow : F64 → F64 → F64)
    (compareLocation : ContainerRuntime → ContainerRuntime → List String → Int)
    (labels : List String) (other : ContainerRuntime)
    (hpow : ∀ k : ℕ, (100 : ℚ) ^ k ≤ 2 ^ 53 →
      mathPow (F64.finite replicaBaseScore) (F64.ofInt k) = F64.finite (100 ^ k))
    (containers : List ContainerRuntime) :
    ∀ acc : ℕ,
      (∀ s ∈ containers, compareLocation s other labels < labels.length) →
      (acc : ℚ) + (containers.map (distinctContribution compareLocation labels other)).sum
        ≤ 2 ^ 53 →
      ∃ total : ℕ,
        (total : ℚ)
          = (acc : ℚ)
            + (containers.map (distinctContribution compareLocation labels other)).sum ∧
        containers.foldl
            (fun score s =>
              if s.ID = other.ID then score
              else
                let index := compareLocation s other labels
                if index ≠ -1 then
                  F64.add score
                    (mathPow (F64.finite replicaBaseScore)
                      (F64.ofInt ((labels.length : Int) - index - 1)))
                else score)
            (F64.finite acc)
          = F64.finite total := by
  induction containers with
  | nil =>
    intro acc _ _
    exact ⟨acc, by simp, rfl⟩
  | cons s rest ih =>
    intro acc hindex hbound
    have hrest_nonneg : 0 ≤ (rest.map (distinctContribution compareLocation labels other)).sum := by
      apply List.sum_nonneg
      intro x hx
      obtain ⟨t, -, rfl⟩ := List.mem_map.mp hx
      exact distinctContribution_nonneg _ _ _ _
    have hindex_rest : ∀ t ∈ rest, compareLocation t other labels < labels.length :=
      fun t ht => hindex t (List.mem_cons_of_mem _ ht)
    rw [List.map_cons, List.sum_cons] at hbound
    rw [List.foldl_cons, List.map_cons, List.sum_cons]
    by_cases hskip : s.ID = other.ID ∨ compareLocation s other labels = -1
    · have h0 : distinctContribution compareLocation labels other s = 0 := by
        simp [distinctContribution, hskip]
      rw [h0, zero_add] at hbound
      rw [h0, zero_add]
      have hstep : (if s.ID = other.ID then F64.finite (acc : ℚ)
          else
            let index := compareLocation s other labels
            if index ≠ -1 then
              F64.add (F64.finite (acc : ℚ))
                (mathPow (F64.finite replicaBaseScore)
                  (F64.ofInt ((labels.length : Int) - index - 1)))
            else F64.finite (acc : ℚ)) = F64.finite (acc : ℚ) := by
        rcases hskip with h | h
        · simp [h]
        · simp [h]
      rw [hstep]
      exact ih acc hindex_rest hbound
    · have hid : s.ID ≠ other.ID := fun e => hskip (Or.inl e)
      have hidx : compareLocation s other labels ≠ -1 := fun e => hskip (Or.inr e)
      have hlt := hindex s (List.mem_cons_self _ _)
      obtain ⟨k, hk⟩ : ∃ k : ℕ, (labels.length : Int) - compareLocation s other labels - 1 = k :=
        ⟨((labels.length : Int) - compareLocation s other labels - 1).toNat, by
          rw [Int.toNat_of_nonneg]; omega⟩
      have hc : distinctContribution compareLocation labels other s = (100 : ℚ) ^ k := by
        simp only [distinctContribution, hid, hidx, or_self, if_false, hk, zpow_natCast]
      rw [hc] at hbound
      rw [hc]
      have hacc_nonneg : (0 : ℚ) ≤ acc := by positivity
      have hpowk : (100 : ℚ) ^ k ≤ 2 ^ 53 := by linarith
      have hstep : (if s.ID = other.ID then F64.finite (acc : ℚ)
          else
            let index := compareLocation s other labels
            if index ≠ -1 then
              F64.add (F64.finite (acc : ℚ))
                (mathPow (F64.finite replicaBaseScore)
                  (F64.ofInt ((labels.length : Int) - index - 1)))
            else F64.finite (acc : ℚ)) = F64.finite ((acc + 100 ^ k : ℕ) : ℚ) := by
        simp only [hid, hidx, if_false, ne_eq, not_false_eq_true, if_true, hk]
        rw [hpow k hpowk]
        have h100 : (100 : ℚ) ^ k = ((100 ^ k : ℕ) : ℚ) := by push_cast; rfl
        rw [h100]
        apply F64.add_natCast
        push_cast
        linarith
      rw [hstep]
      have hnext : ((acc + 100 ^ k : ℕ) : ℚ)
          + (rest.map (distinctContribution compareLocation labels other)).sum ≤ 2 ^ 53 := by
        push_cast
        linarith
      obtain ⟨total, htotal, hfold⟩ := ih (acc + 100 ^ k) hindex_rest hnext
      refine ⟨total, ?_, hfold⟩
      rw [htotal]
      push_cast
      ring

/-- Below `2 ^ 53` the `float64` score is the exact sum of the specification,
which is a natural number. -/
theorem ieee_getDistinctScore_exact (mathPow : F64 → F64 → F64)
    (compareLocation : ContainerRuntime → ContainerRuntime → List String → Int)
    (c : Cfg) (containers : List ContainerRuntime) (other : ContainerRuntime)
    (hpow : ∀ k : ℕ, (100 : ℚ) ^ k ≤ 2 ^ 53 →
      mathPow (F64.finite replicaBaseScore) (F64.ofInt k) = F64.finite (100 ^ k))
    (hindex : ∀ s ∈ containers,
      compareLocation s other c.LocationLabels < c.LocationLabels.length)
    (hbound : specDistinctScore compareLocation c.LocationLabels containers other ≤ 2 ^ 53) :
    ∃ total : ℕ,
      (total : ℚ) = specDistinctScore compareLocation c.LocationLabels containers other ∧
        IEEE.getDistinctScore mathPow compareLocation c containers other
          = F64.finite total := by
  rw [← contributions_eq_spec] at hbound
  rw [← contributions_eq_spec]
  have h := ieee_getDistinctScore_fold mathPow compareLocation c.LocationLabels other hpow
    containers 0 hindex (by simpa using hbound)
  obtain ⟨total, htotal, hfold⟩ := h
  refine ⟨total, by simpa using htotal, ?_⟩
  unfold IEEE.getDistinctScore
  simp only []
  simpa using hfold

/-- The instance `F64.powInteger` of `math.Pow` returns the exact power of 100
whenever that power is at most `2 ^ 53`. -/
theorem powInteger_exact (k : ℕ) (h : (100 : ℚ) ^ k ≤ 2 ^ 53) :
    F64.powInteger (F64.finite replicaBaseScore) (F64.ofInt k) = F64.finite (100 ^ k) := by
  have hk : k ≤ 7 := by
    by_contra hcon
    have h8 : 8 ≤ k := by omega
    have : (100 : ℚ) ^ 8 ≤ (100 : ℚ) ^ k := pow_le_pow_right₀ (by norm_num) h8
    have : (100 : ℚ) ^ 8 ≤ 2 ^ 53 := le_trans this h
    norm_num at this
  interval_cases k <;> decide!

/-- C3 (as stated, refuted): with nine labels the code does not return the
specified sum. An existing container diverging at index 0 contributes
`100 ^ 8 = 10 ^ 16` and two containers diverging at index 8 contribute 1 each;
the specified sum is `10 ^ 16 + 2`, while the `float64` accumulation in list
order returns `10 ^ 16` (each addition of 1 is rounded away). -/
theorem getDistinctScore_sum_counterexample :
    specDistinctScore ContainerRuntime.compareLocation nineCfg.LocationLabels
        [farContainer, nearContainer1, nearContainer2] nineCandidate = 10 ^ 16 + 2 ∧
      IEEE.getDistinctScore F64.powInteger ContainerRuntime.compareLocation nineCfg
        [farContainer, nearContainer1, nearContainer2] nineCandidate
        = F64.finite (10 ^ 16) := by
  decide!

/-- C3 (amended): for every label list (of length `L`), every list of existing
containers and every candidate, if every comparison index lies below `L` and
the specified sum (over the existing containers whose ID differs from the
candidate's and whose index `i` is not -1, of `100 ^ (L - i - 1)`) is at most
`2 ^ 53`, then `getDistinctScore` is that sum; the other containers contribute
nothing, and the score against the empty set is 0. `math.Pow` is a parameter
required to return the exact power when the power is at most `2 ^ 53`. -/
theorem getDistinctScore_eq_spec_when_exact (mathPow : F64 → F64 → F64)
    (compareLocation : ContainerRuntime → ContainerRuntime → List String → Int)
    (c : Cfg) (containers : List ContainerRuntime) (other : ContainerRuntime)
    (hpow : ∀ k : ℕ, (100 : ℚ) ^ k ≤ 2 ^ 53 →
      mathPow (F64.finite replicaBaseScore) (F64.ofInt k) = F64.finite (100 ^ k))
    (hindex : ∀ s ∈ containers,
      compareLocation s other c.LocationLabels < c.LocationLabels.length)
    (hbound : specDistinctScore compareLocation c.LocationLabels containers other ≤ 2 ^ 53) :
    IEEE.getDistinctScore mathPow compareLocation c containers other
        = F64.finite (specDistinctScore compareLocation c.LocationLabels containers other) ∧
      IEEE.getDistinctScore mathPow compareLocation c [] other = F64.finite 0 := by
  obtain ⟨total, htotal, hscore⟩ :=
    ieee_getDistinctScore_exact mathPow compareLocation c containers other hpow hindex hbound
  refine ⟨?_, rfl⟩
  rw [hscore, htotal]

/-- C3 (amended), instance: with labels `zone, rack`, against an existing
container in zone `z1`, rack `r1`, one in another zone and the candidate itself,
the candidate in zone `z1`, rack `r2` scores `100 ^ 0 + 100 ^ 1 = 101`. -/
theorem getDistinctScore_eq_spec_when_exact_witness :
    IEEE.getDistinctScore F64.powInteger ContainerRuntime.compareLocation rackCfg
        [rackContainer 5 "z1" "r1", rackContainer 6 "z2" "r1", rackContainer 7 "z1" "r2"]
        (rackContainer 7 "z1" "r2")
        = F64.finite (specDistinctScore ContainerRuntime.compareLocation rackCfg.LocationLabels
            [rackContainer 5 "z1" "r1", rackContainer 6 "z2" "r1", rackContainer 7 "z1" "r2"]
            (rackContainer 7 "z1" "r2")) ∧
      specDistinctScore ContainerRuntime.compareLocation rackCfg.LocationLabels
        [rackContainer 5 "z1" "r1", rackContainer 6 "z2" "r1", rackContainer 7 "z1" "r2"]
        (rackContainer 7 "z1" "r2") = 101 :=
  ⟨(getDistinctScore_eq_spec_when_exact F64.powInteger ContainerRuntime.compareLocation rackCfg
      [rackContainer 5 "z1" "r1", rackContainer 6 "z2" "r1", rackContainer 7 "z1" "r2"]
      (rackContainer 7 "z1" "r2") powInteger_exact (by decide!) (by decide!)).1,
    by decide!⟩

/-- C20 (as stated, refuted): with nine labels the `float64` score depends on
the order of the existing containers and is not additive. With X diverging at
index 0 and Y, Y' at index 8, the score of `[X, Y, Y']` is `10 ^ 16` and the
score of its permutation `[Y, Y', X]` is `10 ^ 16 + 2`; and the score of
`[X] ++ [Y, Y']` is `10 ^ 16` while the sum of the scores of `[X]` and
`[Y, Y']` is `10 ^ 16 + 2`. -/
theorem getDistinctScore_additive_counterexample :
    List.Perm [nearContainer1, nearContainer2, farContainer]
        [farContainer, nearContainer1, nearContainer2] ∧
      IEEE.getDistinctScore F64.powInteger ContainerRuntime.compareLocation nineCfg
          [nearContainer1, nearContainer2, farContainer] nineCandidate
        ≠ IEEE.getDistinctScore F64.powInteger ContainerRuntime.compareLocation nineCfg
          [farContainer, nearContainer1, nearContainer2] nineCandidate ∧
      IEEE.getDistinctScore F64.powInteger ContainerRuntime.compareLocation nineCfg
          ([farContainer] ++ [nearContainer1, nearContainer2]) nineCandidate
        ≠ F64.add
          (IEEE.getDistinctScore F64.powInteger ContainerRuntime.compareLocation nineCfg
            [farContainer] nineCandidate)
          (IEEE.getDistinctScore F64.powInteger ContainerRuntime.compareLocation nineCfg
            [nearContainer1, nearContainer2] nineCandidate) := by
  refine ⟨?_, by decide!, by decide!⟩
  exact (List.perm_append_comm :
    List.Perm ([nearContainer1, nearContainer2] ++ [farContainer])
      ([farContainer] ++ [nearContainer1, nearContainer2]))

/-- C20 (amended): for every candidate and container lists xs and ys, if every
comparison index lies below the number of labels and the specified sum over
`xs ++ ys` is at most `2 ^ 53`, then `getDistinctScore(xs ++ ys, c)` is the
`float64` sum of `getDistinctScore(xs, c)` and `getDistinctScore(ys, c)`, the
score is the same for every permutation of `xs ++ ys`, the scores are finite and
never negative, and the score of `xs ++ ys` is the exact sum of the two, so it
does not decrease when containers are added. `math.Pow` is a parameter required
to return the exact power when the power is at most `2 ^ 53`. -/
theorem getDistinctScore_additive_when_exact (mathPow : F64 → F64 → F64)
    (compareLocation : ContainerRuntime → ContainerRuntime → List String → Int)
    (c : Cfg) (xs ys : List ContainerRuntime) (other : ContainerRuntime)
    (hpow : ∀ k : ℕ, (100 : ℚ) ^ k ≤ 2 ^ 53 →
      mathPow (F64.finite replicaBaseScore) (F64.ofInt k) = F64.finite (100 ^ k))
    (hindex : ∀ s ∈ xs ++ ys,
      compareLocation s other c.LocationLabels < c.LocationLabels.length)
    (hbound : specDistinctScore compareLocation c.LocationLabels (xs ++ ys) other ≤ 2 ^ 53) :
    IEEE.getDistinctScore mathPow compareLocation c (xs ++ ys) other
        = F64.add (IEEE.getDistinctScore mathPow compareLocation c xs other)
            (IEEE.getDistinctScore mathPow compareLocation c ys other) ∧
      (∀ zs, zs.Perm (xs ++ ys) →
        IEEE.getDistinctScore mathPow compareLocation c zs other
          = IEEE.getDistinctScore mathPow compareLocation c (xs ++ ys) other) ∧
      (∃ a b : ℚ, 0 ≤ a ∧ 0 ≤ b ∧
        IEEE.getDistinctScore mathPow compareLocation c xs other = F64.finite a ∧
        IEEE.getDistinctScore mathPow compareLocation c ys other = F64.finite b ∧
        IEEE.getDistinctScore mathPow compareLocation c (xs ++ ys) other
          = F64.finite (a + b)) := by
  have hspec : ∀ l : List ContainerRuntime,
      specDistinctScore compareLocation c.LocationLabels l other
        = (l.map (distinctContribution compareLocation c.LocationLabels other)).sum :=
    fun l => (contributions_eq_spec compareLocation c.LocationLabels other l).symm
  have hnonneg : ∀ l : List ContainerRuntime,
      0 ≤ specDistinctScore compareLocation c.LocationLabels l other := by
    intro l
    rw [hspec]
    apply List.sum_nonneg
    intro x hx
    obtain ⟨t, -, rfl⟩ := List.mem_map.mp hx
    exact distinctContribution_nonneg _ _ _ _
  have happ : specDistinctScore compareLocation c.LocationLabels (xs ++ ys) other
      = specDistinctScore compareLocation c.LocationLabels xs other
        + specDistinctScore compareLocation c.LocationLabels ys other := by
    rw [hspec, hspec xs, hspec ys, List.map_append, List.sum_append]
  have hbx : specDistinctScore compareLocation c.LocationLabels xs other ≤ 2 ^ 53 := by
    have := hnonneg ys
    linarith
  have hby : specDistinctScore compareLocation c.LocationLabels ys other ≤ 2 ^ 53 := by
    have := hnonneg xs
    linarith
  obtain ⟨tx, htx, hsx⟩ := ieee_getDistinctScore_exact mathPow compareLocation c xs other hpow
    (fun s hs => hindex s (List.mem_append_left _ hs)) hbx
  obtain ⟨ty, hty, hsy⟩ := ieee_getDistinctScore_exact mathPow compareLocation c ys other hpow
    (fun s hs => hindex s (List.mem_append_right _ hs)) hby
  obtain ⟨txy, htxy, hsxy⟩ := ieee_getDistinctScore_exact mathPow compareLocation c (xs ++ ys)
    other hpow hindex hbound
  have hsum : (txy : ℚ) = ((tx + ty : ℕ) : ℚ) := by
    push_cast
    rw [htxy, htx, hty, happ]
  refine ⟨?_, ?_, ?_⟩
  · rw [hsxy, hsx, hsy, hsum]
    symm
    apply F64.add_natCast
    rw [← hsum, htxy]
    exact hbound
  · intro zs hperm
    have hzspec : specDistinctScore compareLocation c.LocationLabels zs other
        = specDistinctScore compareLocation c.LocationLabels (xs ++ ys) other := by
      rw [hspec, hspec (xs ++ ys)]
      exact (hperm.map _).sum_eq
    obtain ⟨tz, htz, hsz⟩ := ieee_getDistinctScore_exact mathPow compareLocation c zs other hpow
      (fun s hs => hindex s (hperm.subset hs)) (by rw [hzspec]; exact hbound)
    rw [hsz, hsxy, htz, htxy, hzspec]
  · refine ⟨tx, ty, by positivity, by positivity, hsx, hsy, ?_⟩
    rw [hsxy, hsum]
    push_cast
    rfl

/-- C20 (amended), instance: with labels `zone, rack`, the scores of
`[same zone other rack]` and `[other zone]` against the candidate are 1 and 100,
and the score of the two lists appended is 101. -/
theorem getDistinctScore_additive_when_exact_witness :
    IEEE.getDistinctScore F64.powInteger ContainerRuntime.compareLocation rackCfg
        ([rackContainer 5 "z1" "r1"] ++ [rackContainer 6 "z2" "r1"]) (rackContainer 7 "z1" "r2")
        = F64.add
          (IEEE.getDistinctScore F64.powInteger ContainerRuntime.compareLocation rackCfg
            [rackContainer 5 "z1" "r1"] (rackContainer 7 "z1" "r2"))
          (IEEE.getDistinctScore F64.powInteger ContainerRuntime.compareLocation rackCfg
            [rackContainer 6 "z2" "r1"] (rackContainer 7 "z1" "r2")) ∧
      IEEE.getDistinctScore F64.powInteger ContainerRuntime.compareLocation rackCfg
        ([rackContainer 5 "z1" "r1"] ++ [rackContainer 6 "z2" "r1"]) (rackContainer 7 "z1" "r2")
        = F64.finite 101 :=
  ⟨(getDistinctScore_additive_when_exact F64.powInteger ContainerRuntime.compareLocation rackCfg
      [rackContainer 5 "z1" "r1"] [rackContainer 6 "z2" "r1"] (rackContainer 7 "z1" "r2")
      powInteger_exact (by decide!) (by decide!)).1,
    by decide!⟩

/-- A container never diverges from a container with the same labels: the scan
of the label keys finds no difference. -/
theorem compareLocationFrom_same_labels (s other : ContainerRuntime)
    (hlabels : s.labels = other.labels) (labels : List String) :
    ∀ i : Nat, compareLocationFrom s other labels i = -1 := by
  induction labels with
  | nil => intro i; rfl
  | cons key rest ih =>
    intro i
    have hval : s.getLabelValue key = other.getLabelValue key := by
      simp [ContainerRuntime.getLabelValue, hlabels]
    simp [compareLocationFrom, hval, ih]

/-- C4: for every label list, every existing container set S and every two
candidates A and B, if for every container c in S the label index at which c
diverges from A is shallower than or equal to the index at which c diverges from
B, then `getDistinctScore(S, A) ≥ getDistinctScore(S, B)`. The comparison of
depths is `shallowerOrEqual`: no divergence (index -1) is the deepest. IDs
identify containers: an existing container with the ID of A carries the labels
of A. -/
theorem distinct_score_monotonicity (c : Cfg) (S : List ContainerRuntime)
    (A B : ContainerRuntime)
    (hid : ∀ s ∈ S, s.ID = A.ID → s.labels = A.labels)
    (h : ∀ s ∈ S,
      shallowerOrEqual (s.compareLocation A c.LocationLabels)
        (s.compareLocation B c.LocationLabels)) :
    c.getDistinctScore ContainerRuntime.compareLocation S A
      ≥ c.getDistinctScore ContainerRuntime.compareLocation S B := by
  apply distinct_score_monotone
  intro s hs hB1 hB2
  rcases h s hs with hdeep | ⟨hA, hle⟩
  · exact absurd hdeep hB2
  · refine ⟨?_, hA, hle⟩
    intro hsame
    apply hA
    exact compareLocationFrom_same_labels s A (hid s hs hsame) c.LocationLabels 0

/-- C4, instance: with labels `zone, rack` and one existing container in zone
`z1`, rack `r1`, a candidate in another zone diverges at index 0 and scores 100,
a candidate in the same zone on another rack diverges at index 1 and scores 1. -/
theorem distinct_score_monotonicity_witness :
    rackCfg.getDistinctScore ContainerRuntime.compareLocation [rackContainer 5 "z1" "r1"]
        (rackContainer 6 "z2" "r1") = 100 ∧
      rackCfg.getDistinctScore ContainerRuntime.compareLocation [rackContainer 5 "z1" "r1"]
        (rackContainer 7 "z1" "r2") = 1 ∧
      rackCfg.getDistinctScore ContainerRuntime.compareLocation [rackContainer 5 "z1" "r1"]
          (rackContainer 6 "z2" "r1")
        ≥ rackCfg.getDistinctScore ContainerRuntime.compareLocation
          [rackContainer 5 "z1" "r1"] (rackContainer 7 "z1" "r2") :=
  ⟨by decide!, by decide!,
    distinct_score_monotonicity rackCfg [rackContainer 5 "z1" "r1"]
      (rackContainer 6 "z2" "r1") (rackContainer 7 "z1" "r2") (by decide!) (by decide!)⟩

/-- Zero is never greater than an absolute value. -/
theorem F64.gt_zero_abs (x : F64) : F64.gt (F64.finite 0) (F64.abs x) = false := by
  cases x with
  | finite a => simp [F64.abs, F64.gt]
  | posInf => rfl
  | negInf => rfl
  | NaN => rfl

/-- Zero is never greater than a distance. -/
theorem ieee_gt_zero_leaderDistance (c : Option ContainerRuntime) (average : F64) :
    F64.gt (F64.finite 0) (IEEE.leaderDistance c average) = false := by
  cases c with
  | none => simp [IEEE.leaderDistance, F64.gt]
  | some c => exact F64.gt_zero_abs _

/-- A finite value minus itself is zero. -/
theorem F64.sub_self_finite (a : ℚ) : F64.sub (F64.finite a) (F64.finite a) = F64.finite 0 := by
  simp [F64.sub, F64.neg, F64.add, F64.round]

/-- In a non-empty cluster, the `float64` `scheduleTransferLeader` is its body
after the emptiness guard. -/
theorem ieee_scheduleTransferLeader_nonempty (rt : Runtime) (s : Selector)
    (filters : List Filter) (hne : rt.GetContainers ≠ []) :
    IEEE.scheduleTransferLeader rt s filters =
      (let containers := rt.GetContainers
       let average := IEEE.averageLeader containers
       let mostLeaderContainer := s.SelectSource containers filters
       let leastLeaderContainer := s.SelectTarget containers filters
       let selected := [Call.GetContainers, Call.SelectSource containers filters,
         Call.SelectTarget containers filters]
       let mostLeaderDistance := IEEE.leaderDistance mostLeaderContainer average
       let leastLeaderDistance := IEEE.leaderDistance leastLeaderContainer average
       if mostLeaderDistance.isZero = true ∧ leastLeaderDistance.isZero = true then
         (Except.ok (none, none), selected)
       else if F64.gt mostLeaderDistance leastLeaderDistance = true then
         match mostLeaderContainer with
         | none => (Except.error GoPanic.nilDeref, selected)
         | some most =>
           match rt.RandLeaderResource most.ID with
           | none => (Except.ok (none, none), selected ++ [Call.RandLeaderResource most.ID])
           | some res =>
             let targetContainers := rt.GetResourceFollowerContainers res
             let calls := selected ++ [Call.RandLeaderResource most.ID,
               Call.GetResourceFollowerContainers res, Call.SelectTarget targetContainers []]
             match s.SelectTarget targetContainers [] with
             | none => (Except.ok (none, none), calls)
             | some target => (Except.ok (some res, res.GetContainerPeer target.ID), calls)
       else
         match leastLeaderContainer with
         | none => (Except.error GoPanic.nilDeref, selected)
         | some least =>
           match rt.RandFollowerResource least.ID with
           | none =>
             (Except.ok (none, none), selected ++ [Call.RandFollowerResource least.ID])
           | some res =>
             (Except.ok (some res, res.GetContainerPeer least.ID),
               selected ++ [Call.RandFollowerResource least.ID])) := by
  have hlen : ¬ rt.GetContainers.length = 0 := fun h => hne (List.length_eq_zero.mp h)
  unfold IEEE.scheduleTransferLeader
  simp only [hlen, if_false]

/-- When the `float64` `scheduleTransferLeader` returns no resource, `Schedule`
returns no operator and leaves the scheduler as it was. -/
theorem ieee_Schedule_of_no_transfer (d : Deps) (l : balanceResourceLeaderScheduler)
    (rt : Runtime) (newLeader : Option Peer)
    (h : (IEEE.scheduleTransferLeader rt l.selector []).1 = Except.ok (none, newLeader)) :
    (IEEE.Schedule d l rt).result = Except.ok none ∧ (IEEE.Schedule d l rt).scheduler = l := by
  unfold IEEE.Schedule
  rcases hs : IEEE.scheduleTransferLeader rt l.selector [] with ⟨r, calls⟩
  rw [hs] at h
  simp only at h
  subst h
  simp

/-- C7 (as stated, refuted): six containers of leader score 1. Every container,
hence the selected source and target, has a leader score equal to the average
leader score 1 of all containers, yet the code accumulates the average
`0.9999999999999999` in `float64`, finds both distances non-zero, and goes on to
pick a resource with `RandFollowerResource` and to return it. -/
theorem balanced_cluster_counterexample :
    sixOnesRuntime.GetContainers ≠ [] ∧
      (∀ c ∈ sixOnesRuntime.GetContainers,
        c.LeaderScore = meanLeaderScore sixOnesRuntime.GetContainers) ∧
      (scoreSelector []).SelectSource sixOnesRuntime.GetContainers []
        = some (zoneContainer 1 "z1" 1) ∧
      (scoreSelector []).SelectTarget sixOnesRuntime.GetContainers []
        = some (zoneContainer 1 "z1" 1) ∧
      IEEE.averageLeader sixOnesRuntime.GetContainers
        = F64.finite (9007199254740991 / 9007199254740992) ∧
      (IEEE.scheduleTransferLeader sixOnesRuntime (scoreSelector []) []).1
        = Except.ok (some followerOn1, some ⟨42, 1⟩) := by
  decide!

/-- C7 (amended): for every non-empty container set, if the container returned
by `SelectSource` and the container returned by `SelectTarget` each either is
nil or has a leader score equal to the average that the code accumulates in
`float64` (the sum, in list order, of `score / float64(n)`, each step rounded),
then both distances are zero and `scheduleTransferLeader` returns `(nil, nil)`
after the calls `GetContainers`, `SelectSource`, `SelectTarget` only: no
resource is picked. -/
theorem balanced_cluster_no_action_float (rt : Runtime) (s : Selector) (filters : List Filter)
    (hne : rt.GetContainers ≠ [])
    (hsource : ∀ c, s.SelectSource rt.GetContainers filters = some c →
      F64.finite c.LeaderScore = IEEE.averageLeader rt.GetContainers)
    (htarget : ∀ c, s.SelectTarget rt.GetContainers filters = some c →
      F64.finite c.LeaderScore = IEEE.averageLeader rt.GetContainers) :
    IEEE.scheduleTransferLeader rt s filters
        = (Except.ok (none, none),
            [Call.GetContainers, Call.SelectSource rt.GetContainers filters,
              Call.SelectTarget rt.GetContainers filters]) ∧
      (∀ call ∈ (IEEE.scheduleTransferLeader rt s filters).2, call.isResourcePick = false) := by
  have hmost : IEEE.leaderDistance (s.SelectSource rt.GetContainers filters)
      (IEEE.averageLeader rt.GetContainers) = F64.finite 0 := by
    cases h : s.SelectSource rt.GetContainers filters with
    | none => rfl
    | some c =>
      simp only [IEEE.leaderDistance]
      rw [← hsource c h, F64.sub_self_finite]
      simp [F64.abs]
  have hleast : IEEE.leaderDistance (s.SelectTarget rt.GetContainers filters)
      (IEEE.averageLeader rt.GetContainers) = F64.finite 0 := by
    cases h : s.SelectTarget rt.GetContainers filters with
    | none => rfl
    | some c =>
      simp only [IEEE.leaderDistance]
      rw [← htarget c h, F64.sub_self_finite]
      simp [F64.abs]
  have hcall : IEEE.scheduleTransferLeader rt s filters
      = (Except.ok (none, none),
          [Call.GetContainers, Call.SelectSource rt.GetContainers filters,
            Call.SelectTarget rt.GetContainers filters]) := by
    rw [ieee_scheduleTransferLeader_nonempty rt s filters hne]
    simp [hmost, hleast, F64.isZero]
  refine ⟨hcall, ?_⟩
  rw [hcall]
  simp [Call.isResourcePick]

/-- C7 (amended), instance: three containers of leader score 5; the `float64`
average is exactly 5. -/
theorem balanced_cluster_no_action_float_witness :
    IEEE.averageLeader balancedRuntime.GetContainers = F64.finite 5 ∧
      IEEE.scheduleTransferLeader balancedRuntime (scoreSelector []) []
        = (Except.ok (none, none),
            [Call.GetContainers, Call.SelectSource balancedRuntime.GetContainers [],
              Call.SelectTarget balancedRuntime.GetContainers []]) :=
  ⟨by decide!,
    (balanced_cluster_no_action_float balancedRuntime (scoreSelector []) [] (by decide!)
      (fun c h => by
        have hc : (scoreSelector []).SelectSource balancedRuntime.GetContainers []
            = some (zoneContainer 1 "z1" 5) := by decide!
        rw [hc] at h
        rw [← Option.some.inj h]
        decide!)
      (fun c h => by
        have hc : (scoreSelector []).SelectTarget balancedRuntime.GetContainers []
            = some (zoneContainer 1 "z1" 5) := by decide!
        rw [hc] at h
        rw [← Option.some.inj h]
        decide!)).1⟩

/-- C8 (as stated, refuted): leader scores 0.1, 0.5, 0.9. The deviation of the
source (score 0.9) from the average leader score is strictly greater than the
deviation of the target (score 0.1), and `RandLeaderResource(source)` and
`SelectTarget` over its follower containers are both non-nil; yet the code
accumulates the average 0.5 in `float64`, computes the two distances as the
same value, takes the transfer-in branch, calls `RandFollowerResource` and, as
that returns nil, returns `(nil, nil)` instead of the resource led by the
source. -/
theorem transfer_out_counterexample :
    (scoreSelector []).SelectSource fractionalRuntime.GetContainers []
        = some (zoneContainer 3 "z1" nineTenths) ∧
      (scoreSelector []).SelectTarget fractionalRuntime.GetContainers []
        = some (zoneContainer 1 "z1" tenth) ∧
      |nineTenths - meanLeaderScore fractionalRuntime.GetContainers|
        > |tenth - meanLeaderScore fractionalRuntime.GetContainers| ∧
      fractionalRuntime.RandLeaderResource 3 = some ledOn3 ∧
      (scoreSelector []).SelectTarget (fractionalRuntime.GetResourceFollowerContainers ledOn3) []
        = some (zoneContainer 1 "z1" tenth) ∧
      IEEE.averageLeader fractionalRuntime.GetContainers = F64.finite (1 / 2) ∧
      IEEE.leaderDistance (some (zoneContainer 3 "z1" nineTenths)) (F64.finite (1 / 2))
        = IEEE.leaderDistance (some (zoneContainer 1 "z1" tenth)) (F64.finite (1 / 2)) ∧
      (IEEE.scheduleTransferLeader fractionalRuntime (scoreSelector []) []).1
        = Except.ok (none, none) := by
  decide!

/-- C8 (amended): for every non-empty container set in which the distance of the
source container from the average, as the code computes both in `float64`, is
strictly greater than that of the target container, the source container
exists, `scheduleTransferLeader` asks `RandLeaderResource(source ID)` and never
`RandFollowerResource`, and when that resource `res` and
`SelectTarget(GetResourceFollowerContainers(res))` are both non-nil it returns
`res` together with the peer of `res` on the selected follower container. -/
theorem transfer_out_direction_float (rt : Runtime) (s : Selector) (filters : List Filter)
    (hne : rt.GetContainers ≠ [])
    (hdom : F64.gt
        (IEEE.leaderDistance (s.SelectSource rt.GetContainers filters)
          (IEEE.averageLeader rt.GetContainers))
        (IEEE.leaderDistance (s.SelectTarget rt.GetContainers filters)
          (IEEE.averageLeader rt.GetContainers)) = true) :
    ∃ most, s.SelectSource rt.GetContainers filters = some most ∧
      Call.RandLeaderResource most.ID ∈ (IEEE.scheduleTransferLeader rt s filters).2 ∧
      (∀ id, Call.RandFollowerResource id ∉ (IEEE.scheduleTransferLeader rt s filters).2) ∧
      ∀ res target, rt.RandLeaderResource most.ID = some res →
        s.SelectTarget (rt.GetResourceFollowerContainers res) [] = some target →
        (IEEE.scheduleTransferLeader rt s filters).1
          = Except.ok (some res, res.GetContainerPeer target.ID) := by
  have hnz : ¬ ((IEEE.leaderDistance (s.SelectSource rt.GetContainers filters)
        (IEEE.averageLeader rt.GetContainers)).isZero = true ∧
      (IEEE.leaderDistance (s.SelectTarget rt.GetContainers filters)
        (IEEE.averageLeader rt.GetContainers)).isZero = true) := by
    rintro ⟨h1, -⟩
    have h0 : IEEE.leaderDistance (s.SelectSource rt.GetContainers filters)
        (IEEE.averageLeader rt.GetContainers) = F64.finite 0 := by
      simpa [F64.isZero] using h1
    rw [h0, ieee_gt_zero_leaderDistance] at hdom
    exact Bool.noConfusion hdom
  rw [ieee_scheduleTransferLeader_nonempty rt s filters hne]
  simp only [hnz, hdom, if_false, if_true]
  rcases hs : s.SelectSource rt.GetContainers filters with _ | most
  · rw [hs] at hdom
    have h0 : IEEE.leaderDistance (none : Option ContainerRuntime)
        (IEEE.averageLeader rt.GetContainers) = F64.finite 0 := rfl
    rw [h0, ieee_gt_zero_leaderDistance] at hdom
    exact Bool.noConfusion hdom
  · refine ⟨most, rfl, ?_, ?_, ?_⟩
    · rcases hr : rt.RandLeaderResource most.ID with _ | res
      · simp [hr]
      · rcases ht : s.SelectTarget (rt.GetResourceFollowerContainers res) [] with _ | target <;>
          simp [hr, ht]
    · intro id
      rcases hr : rt.RandLeaderResource most.ID with _ | res
      · simp [hr]
      · rcases ht : s.SelectTarget (rt.GetResourceFollowerContainers res) [] with _ | target <;>
          simp [hr, ht]
    · intro res target hres htarget
      simp only [hres, htarget]

/-- C8 (amended), instance: leader scores 10, 0, 0. The `float64` average is
`3.3333333333333335`, the source is the score-10 container 1 at distance
`6.666666666666666`, the target a score-0 container, and the transfer returned
moves the leadership of the resource led on container 1 to its peer on the
score-0 container 2. -/
theorem transfer_out_direction_float_witness :
    IEEE.averageLeader skewedRuntime.GetContainers
        = F64.finite (7505999378950827 / 2251799813685248) ∧
      (scoreSelector []).SelectSource skewedRuntime.GetContainers []
        = some (zoneContainer 1 "z1" 10) ∧
      resource1.leaderPeer = some ⟨11, 1⟩ ∧
      (IEEE.scheduleTransferLeader skewedRuntime (scoreSelector []) []).1
        = Except.ok (some resource1, some ⟨12, 2⟩) := by
  obtain ⟨most, hmost, -, -, hres⟩ :=
    transfer_out_direction_float skewedRuntime (scoreSelector []) [] (by decide!) (by decide!)
  have hsrc : (scoreSelector []).SelectSource skewedRuntime.GetContainers []
      = some (zoneContainer 1 "z1" 10) := by decide!
  rw [hsrc] at hmost
  have hid : most.ID = 1 := by rw [← Option.some.inj hmost]; rfl
  refine ⟨by decide!, hsrc, rfl, ?_⟩
  have h := hres resource1 (zoneContainer 2 "z1" 0) (by rw [hid]; rfl) (by decide!)
  rw [h]
  rfl

/-- C9 (as stated, refuted): leader scores 2, 3, 1. The deviations of the source
(score 3) and of the target (score 1) from the average leader score 2 are both
1: not both zero, and the source's not strictly greater. Yet the code
accumulates the average `1.9999999999999998` in `float64`, finds the source
distance `1.0000000000000002` strictly greater than the target distance
`0.9999999999999998`, takes the transfer-out branch and returns the resource
picked by `RandLeaderResource(source)`, not the one `RandFollowerResource(target)`
offers. -/
theorem transfer_in_counterexample :
    (scoreSelector []).SelectSource tieRuntime.GetContainers []
        = some (zoneContainer 2 "z1" 3) ∧
      (scoreSelector []).SelectTarget tieRuntime.GetContainers []
        = some (zoneContainer 3 "z1" 1) ∧
      |(3 : ℚ) - meanLeaderScore tieRuntime.GetContainers| = 1 ∧
      |(1 : ℚ) - meanLeaderScore tieRuntime.GetContainers| = 1 ∧
      tieRuntime.RandFollowerResource 3 = some followerOn3 ∧
      IEEE.averageLeader tieRuntime.GetContainers
        = F64.finite (9007199254740991 / 4503599627370496) ∧
      IEEE.leaderDistance (some (zoneContainer 2 "z1" 3))
          (F64.finite (9007199254740991 / 4503599627370496))
        = F64.finite (4503599627370497 / 4503599627370496) ∧
      IEEE.leaderDistance (some (zoneContainer 3 "z1" 1))
          (F64.finite (9007199254740991 / 4503599627370496))
        = F64.finite (4503599627370495 / 4503599627370496) ∧
      (IEEE.scheduleTransferLeader tieRuntime (scoreSelector []) []).1
        = Except.ok (some ledOn2, some ⟨63, 3⟩) ∧
      (IEEE.scheduleTransferLeader tieRuntime (scoreSelector []) []).1
        ≠ Except.ok (some followerOn3, followerOn3.GetContainerPeer 3) := by
  decide!

/-- C9 (amended): for every non-empty container set with a target (least loaded)
container, in which the two distances, as the code computes them in `float64`,
are not both zero and the source distance is not strictly greater than the
target distance, `scheduleTransferLeader` asks `RandFollowerResource(target ID)`
and, when that resource `res` is non-nil, returns `res` together with the peer
of `res` on the least loaded container itself (and `(nil, nil)` when it is nil);
the calls made are `GetContainers`, `SelectSource`, `SelectTarget`,
`RandFollowerResource`, so `SelectTarget` is consulted exactly once. -/
theorem transfer_in_direction_float (rt : Runtime) (s : Selector) (filters : List Filter)
    (least : ContainerRuntime)
    (hne : rt.GetContainers ≠ [])
    (hleast : s.SelectTarget rt.GetContainers filters = some least)
    (hnz : ¬ ((IEEE.leaderDistance (s.SelectSource rt.GetContainers filters)
          (IEEE.averageLeader rt.GetContainers)).isZero = true ∧
        (IEEE.leaderDistance (s.SelectTarget rt.GetContainers filters)
          (IEEE.averageLeader rt.GetContainers)).isZero = true))
    (hnot : F64.gt
        (IEEE.leaderDistance (s.SelectSource rt.GetContainers filters)
          (IEEE.averageLeader rt.GetContainers))
        (IEEE.leaderDistance (s.SelectTarget rt.GetContainers filters)
          (IEEE.averageLeader rt.GetContainers)) = false) :
    (IEEE.scheduleTransferLeader rt s filters).2
        = [Call.GetContainers, Call.SelectSource rt.GetContainers filters,
            Call.SelectTarget rt.GetContainers filters,
            Call.RandFollowerResource least.ID] ∧
      (((IEEE.scheduleTransferLeader rt s filters).2.filter Call.isSelectTarget).length = 1) ∧
      (rt.RandFollowerResource least.ID = none →
        (IEEE.scheduleTransferLeader rt s filters).1 = Except.ok (none, none)) ∧
      ∀ res, rt.RandFollowerResource least.ID = some res →
        (IEEE.scheduleTransferLeader rt s filters).1
          = Except.ok (some res, res.GetContainerPeer least.ID) := by
  rw [ieee_scheduleTransferLeader_nonempty rt s filters hne]
  simp only [hnz, hnot, if_false, Bool.false_eq_true]
  simp only [hleast]
  refine ⟨?_, ?_, ?_, ?_⟩
  · rcases hr : rt.RandFollowerResource least.ID with _ | res <;> simp [hr]
  · rcases hr : rt.RandFollowerResource least.ID with _ | res <;>
      simp [hr, List.filter_cons, Call.isSelectTarget]
  · intro hr
    simp only [hr]
  · intro res hr
    simp only [hr]

/-- C9 (amended), instance: leader scores 4, 1, 4. The `float64` average is 3,
the least loaded container 2 is at distance 2, the most loaded at distance 1,
and the transfer returned gives the leadership of the resource followed on
container 2 to its peer on container 2. -/
theorem transfer_in_direction_float_witness :
    IEEE.averageLeader starvedRuntime.GetContainers = F64.finite 3 ∧
      (scoreSelector []).SelectTarget starvedRuntime.GetContainers []
        = some (zoneContainer 2 "z1" 1) ∧
      (IEEE.scheduleTransferLeader starvedRuntime (scoreSelector []) []).1
        = Except.ok (some resource1, some ⟨12, 2⟩) ∧
      ((IEEE.scheduleTransferLeader starvedRuntime (scoreSelector []) []).2.filter
        Call.isSelectTarget).length = 1 := by
  have htgt : (scoreSelector []).SelectTarget starvedRuntime.GetContainers []
      = some (zoneContainer 2 "z1" 1) := by decide!
  obtain ⟨-, hcount, -, hres⟩ :=
    transfer_in_direction_float starvedRuntime (scoreSelector []) [] (zoneContainer 2 "z1" 1)
      (by decide!) htgt (by decide!) (by decide!)
  refine ⟨by decide!, htgt, ?_, hcount⟩
  rw [hres resource1 rfl]
  rfl

/-- C10 (as stated, refuted): leader scores 2, 3, 1 and no follower resource to
offer. The deviations of the source and of the target from the average leader
score 2 are both 1, which is the transfer-in direction, and
`RandFollowerResource(target)` returns nil; yet the code, whose `float64`
distances are `1.0000000000000002` and `0.9999999999999998`, takes the
transfer-out branch and returns the resource led by the source with its peer on
container 3 instead of `(nil, nil)`. -/
theorem no_eligible_resource_counterexample :
    (scoreSelector []).SelectSource tieNoFollowerRuntime.GetContainers []
        = some (zoneContainer 2 "z1" 3) ∧
      (scoreSelector []).SelectTarget tieNoFollowerRuntime.GetContainers []
        = some (zoneContainer 3 "z1" 1) ∧
      ¬ (|(3 : ℚ) - meanLeaderScore tieNoFollowerRuntime.GetContainers|
          > |(1 : ℚ) - meanLeaderScore tieNoFollowerRuntime.GetContainers|) ∧
      |(1 : ℚ) - meanLeaderScore tieNoFollowerRuntime.GetContainers| ≠ 0 ∧
      tieNoFollowerRuntime.RandFollowerResource 3 = none ∧
      (IEEE.scheduleTransferLeader tieNoFollowerRuntime (scoreSelector []) []).1
        = Except.ok (some ledOn2, some ⟨63, 3⟩) := by
  decide!

/-- C10 (amended): for every runtime, with the direction decided by the
distances that the code computes in `float64`: if in the transfer-out direction
(source distance strictly greater than target distance) `RandLeaderResource`
returns nil or `SelectTarget` over the follower containers of the resource
returns nil, or in the transfer-in direction `RandFollowerResource` of the
target container returns nil, then `scheduleTransferLeader` returns
`(nil, nil)`; and `Schedule`, which calls it with the selector of the scheduler
and no filter, returns no operator and leaves the scheduler unchanged. -/
theorem no_eligible_resource_no_action_float (d : Deps) (l : balanceResourceLeaderScheduler)
    (rt : Runtime) (filters : List Filter)
    (h : (F64.gt
            (IEEE.leaderDistance (l.selector.SelectSource rt.GetContainers filters)
              (IEEE.averageLeader rt.GetContainers))
            (IEEE.leaderDistance (l.selector.SelectTarget rt.GetContainers filters)
              (IEEE.averageLeader rt.GetContainers)) = true ∧
          ∀ most, l.selector.SelectSource rt.GetContainers filters = some most →
            (rt.RandLeaderResource most.ID = none ∨
              ∃ res, rt.RandLeaderResource most.ID = some res ∧
                l.selector.SelectTarget (rt.GetResourceFollowerContainers res) [] = none)) ∨
        (F64.gt
            (IEEE.leaderDistance (l.selector.SelectSource rt.GetContainers filters)
              (IEEE.averageLeader rt.GetContainers))
            (IEEE.leaderDistance (l.selector.SelectTarget rt.GetContainers filters)
              (IEEE.averageLeader rt.GetContainers)) = false ∧
          ∃ least, l.selector.SelectTarget rt.GetContainers filters = some least ∧
            rt.RandFollowerResource least.ID = none)) :
    (IEEE.scheduleTransferLeader rt l.selector filters).1 = Except.ok (none, none) ∧
      (filters = [] →
        (IEEE.Schedule d l rt).result = Except.ok none ∧ (IEEE.Schedule d l rt).scheduler = l) := by
  have hcall : (IEEE.scheduleTransferLeader rt l.selector filters).1
      = Except.ok (none, none) := by
    by_cases hne : rt.GetContainers = []
    · simp [IEEE.scheduleTransferLeader, hne]
    · rw [ieee_scheduleTransferLeader_nonempty rt l.selector filters hne]
      simp only []
      split_ifs with hzero hdom
      · rfl
      · rcases h with ⟨-, hout⟩ | ⟨hnot, -⟩
        · rcases hs : l.selector.SelectSource rt.GetContainers filters with _ | most
          · exfalso
            rw [hs] at hdom
            have h0 : IEEE.leaderDistance (none : Option ContainerRuntime)
                (IEEE.averageLeader rt.GetContainers) = F64.finite 0 := rfl
            rw [h0, ieee_gt_zero_leaderDistance] at hdom
            exact Bool.noConfusion hdom
          · rcases hout most hs with hr | ⟨res, hr, ht⟩
            · simp only [hr]
            · simp only [hr, ht]
        · rw [hnot] at hdom
          exact Bool.noConfusion hdom
      · rcases h with ⟨hdom2, -⟩ | ⟨-, least, ht, hr⟩
        · exact absurd hdom2 hdom
        · simp only [ht, hr]
  refine ⟨hcall, ?_⟩
  intro hf
  subst hf
  exact ieee_Schedule_of_no_transfer d l rt none hcall

/-- C10 (amended), instance: leader scores 10, 0, 0 with no resource recorded:
the transfer-out direction is chosen, `RandLeaderResource` returns nil, and
neither `scheduleTransferLeader` nor `Schedule` produces anything. -/
theorem no_eligible_resource_no_action_float_witness :
    (IEEE.scheduleTransferLeader idleRuntime
        (newBalanceResourceLeaderScheduler sampleDeps).selector []).1
        = Except.ok (none, none) ∧
      (IEEE.Schedule sampleDeps (newBalanceResourceLeaderScheduler sampleDeps) idleRuntime).result
        = Except.ok none ∧
      (IEEE.Schedule sampleDeps (newBalanceResourceLeaderScheduler sampleDeps)
        idleRuntime).scheduler = newBalanceResourceLeaderScheduler sampleDeps := by
  have h := no_eligible_resource_no_action_float sampleDeps
    (newBalanceResourceLeaderScheduler sampleDeps) idleRuntime []
    (Or.inl ⟨by decide!, fun most _ => Or.inl rfl⟩)
  exact ⟨h.1, (h.2 rfl).1, (h.2 rfl).2⟩

/-- `notifyElectionComplete` sends exactly one signal on a non-nil channel and
changes nothing else. -/
theorem notifyElectionComplete_eq (p : Prophet) :
    Prophet.notifyElectionComplete p
      = { p with completeC := p.completeC.map (fun n => n + 1) } := by
  cases h : p.completeC with
  | none =>
    simp only [Prophet.notifyElectionComplete, h, Option.map_none']
    cases p
    simp_all
  | some n =>
    simp only [Prophet.notifyElectionComplete, h, Option.map_some']

/-- C18: one iteration of the leadership driver (context not cancelled) takes
exactly the specified path. If `GetCurrentLeader` fails, it only sleeps: none of
`ResignLeader`, `WatchLeader`, `CampaignLeader` is called and the state is
unchanged. If no leader is recorded, it calls `CampaignLeader` directly. If the
recorded leader matches the own node (same ID and name), it calls `ResignLeader`
and goes on to `CampaignLeader` only when that succeeds; on failure it sleeps
and calls neither `WatchLeader` nor `CampaignLeader`. If the recorded leader is
another node, it stores that node in `p.leader`, sends one election-complete
signal (the count of signals on a non-nil `completeC` goes from `n` to `n + 1`),
calls `WatchLeader` and then `CampaignLeader`. The state after the iteration is
the state after these writes with the callbacks of `CampaignLeader` applied. -/
theorem leader_loop_iteration_paths (leaseTTL : Int) (p : Prophet) (store : StoreAnswers) :
    (∀ e, store.GetCurrentLeader = Except.error e →
        (p.startLeaderLoopIteration leaseTTL false store).events
            = [LoopEvent.GetCurrentLeader, LoopEvent.Sleep loopInterval] ∧
          (p.startLeaderLoopIteration leaseTTL false store).prophet = p) ∧
      (store.GetCurrentLeader = Except.ok none →
        (p.startLeaderLoopIteration leaseTTL false store).events
            = [LoopEvent.GetCurrentLeader, LoopEvent.CampaignLeader p.signature leaseTTL] ∧
          (p.startLeaderLoopIteration leaseTTL false store).prophet
            = p.runCallbacks store.CampaignLeader.1) ∧
      (∀ leader, store.GetCurrentLeader = Except.ok (some leader) →
        leader.ID = p.node.ID → leader.Name = p.node.Name →
        (∀ e, store.ResignLeader = some e →
          (p.startLeaderLoopIteration leaseTTL false store).events
              = [LoopEvent.GetCurrentLeader, LoopEvent.ResignLeader p.signature,
                  LoopEvent.Sleep loopInterval] ∧
            (p.startLeaderLoopIteration leaseTTL false store).prophet = p) ∧
        (store.ResignLeader = none →
          (p.startLeaderLoopIteration leaseTTL false store).events
              = [LoopEvent.GetCurrentLeader, LoopEvent.ResignLeader p.signature,
                  LoopEvent.CampaignLeader p.signature leaseTTL] ∧
            (p.startLeaderLoopIteration leaseTTL false store).prophet
              = p.runCallbacks store.CampaignLeader.1)) ∧
      (∀ leader, store.GetCurrentLeader = Except.ok (some leader) →
        ¬ (leader.ID = p.node.ID ∧ leader.Name = p.node.Name) →
        (p.startLeaderLoopIteration leaseTTL false store).events
            = [LoopEvent.GetCurrentLeader, LoopEvent.notifyElectionComplete,
                LoopEvent.WatchLeader, LoopEvent.CampaignLeader p.signature leaseTTL] ∧
          (p.startLeaderLoopIteration leaseTTL false store).prophet
            = Prophet.runCallbacks
                { node := p.node, signature := p.signature, leader := some leader,
                  leaderFlag := p.leaderFlag, rt := p.rt,
                  completeC := p.completeC.map (fun n => n + 1) }
                store.CampaignLeader.1 ∧
          (p.startLeaderLoopIteration leaseTTL false store).prophet.leader = some leader ∧
          (store.CampaignLeader.1 = [] →
            (p.startLeaderLoopIteration leaseTTL false store).prophet.completeC
              = p.completeC.map (fun n => n + 1))) := by
  refine ⟨?_, ?_, ?_, ?_⟩
  · intro e h
    simp [Prophet.startLeaderLoopIteration, h]
  · intro h
    simp [Prophet.startLeaderLoopIteration, Prophet.campaignStage, h]
  · intro leader h hid hname
    have hm : p.isMatchLeader (some leader) = true := by
      simp [Prophet.isMatchLeader, hid, hname]
    constructor
    · intro e he
      simp [Prophet.startLeaderLoopIteration, h, hm, he]
    · intro he
      simp [Prophet.startLeaderLoopIteration, Prophet.campaignStage, h, hm, he]
  · intro leader h hne
    have hm : p.isMatchLeader (some leader) = false := by
      simp only [Prophet.isMatchLeader, Bool.and_eq_false_iff, decide_eq_false_iff_not]
      by_contra hcon
      push_neg at hcon
      exact hne ⟨hcon.2.symm, hcon.1.symm⟩
    have hstate : Prophet.notifyElectionComplete { p with leader := some leader }
        = { node := p.node, signature := p.signature, leader := some leader,
            leaderFlag := p.leaderFlag, rt := p.rt,
            completeC := p.completeC.map (fun n => n + 1) } := by
      rw [notifyElectionComplete_eq]
    have hprophet : (p.startLeaderLoopIteration leaseTTL false store).prophet
        = Prophet.runCallbacks
            { node := p.node, signature := p.signature, leader := some leader,
              leaderFlag := p.leaderFlag, rt := p.rt,
              completeC := p.completeC.map (fun n => n + 1) }
            store.CampaignLeader.1 := by
      simp [Prophet.startLeaderLoopIteration, Prophet.campaignStage, h, hm, hstate]
    refine ⟨?_, hprophet, ?_, ?_⟩
    · simp [Prophet.startLeaderLoopIteration, Prophet.campaignStage, h, hm, hstate]
    · rw [hprophet, runCallbacks_leader]
    · intro hnone
      rw [hprophet, hnone]
      rfl

/-- C18, instance: `node1`, with no signal sent yet on `completeC`, finds `node2`
recorded as leader, records it, sends one election-complete signal, watches,
then campaigns and loses with an error: one signal has been sent. When it wins
instead, the callback `enableLeader` sends a second signal. -/
theorem leader_loop_iteration_paths_witness :
    (prophet1.startLeaderLoopIteration 5 false
        { GetCurrentLeader := Except.ok (some node2), ResignLeader := none,
          CampaignLeader := ([], some ⟨"lease lost"⟩) }).events
        = [LoopEvent.GetCurrentLeader, LoopEvent.notifyElectionComplete,
            LoopEvent.WatchLeader, LoopEvent.CampaignLeader "sig-n1" 5] ∧
      (prophet1.startLeaderLoopIteration 5 false
        { GetCurrentLeader := Except.ok (some node2), ResignLeader := none,
          CampaignLeader := ([], some ⟨"lease lost"⟩) }).prophet.leader = some node2 ∧
      prophet1.completeC = some 0 ∧
      (prophet1.startLeaderLoopIteration 5 false
        { GetCurrentLeader := Except.ok (some node2), ResignLeader := none,
          CampaignLeader := ([], some ⟨"lease lost"⟩) }).prophet.completeC = some 1 ∧
      (prophet1.startLeaderLoopIteration 5 false
        { GetCurrentLeader := Except.ok (some node2), ResignLeader := none,
          CampaignLeader := ([LeaderCallback.enableLeader emptyRuntime], none) }).prophet.completeC
        = some 2 := by
  have h := (leader_loop_iteration_paths 5 prophet1
    { GetCurrentLeader := Except.ok (some node2), ResignLeader := none,
      CampaignLeader := ([], some ⟨"lease lost"⟩) }).2.2.2
    node2 rfl (by decide)
  have h2 := (leader_loop_iteration_paths 5 prophet1
    { GetCurrentLeader := Except.ok (some node2), ResignLeader := none,
      CampaignLeader := ([LeaderCallback.enableLeader emptyRuntime], none) }).2.2.2
    node2 rfl (by decide)
  refine ⟨h.1, h.2.2.1, rfl, h.2.2.2 rfl, ?_⟩
  rw [h2.2.1]
  rfl


/-! ## The control-flow statements on the float64 embedding

The statements about the empty cluster and about `Schedule` do not depend on the
score arithmetic; they hold verbatim for the `float64` embedding. -/

/-- The empty cluster on the `float64` embedding: `scheduleTransferLeader`
returns `(nil, nil)` after the single call `GetContainers`, and `Schedule`
returns no operator and leaves the scheduler unchanged. -/
theorem float_empty_cluster (d : Deps) (l : balanceResourceLeaderScheduler)
    (rt : Runtime) (s : Selector) (filters : List Filter)
    (hempty : rt.GetContainers = []) :
    IEEE.scheduleTransferLeader rt s filters = (Except.ok (none, none), [Call.GetContainers]) ∧
      (∀ call ∈ (IEEE.scheduleTransferLeader rt s filters).2,
        call.isSelectorOrResourceQuery = false) ∧
      (IEEE.Schedule d l rt).result = Except.ok none ∧
      (IEEE.Schedule d l rt).scheduler = l ∧
      (∀ call ∈ (IEEE.Schedule d l rt).calls, call.isSelectorOrResourceQuery = false) := by
  have hcall : ∀ (s : Selector) (filters : List Filter),
      IEEE.scheduleTransferLeader rt s filters = (Except.ok (none, none), [Call.GetContainers]) := by
    intro s filters
    simp [IEEE.scheduleTransferLeader, hempty]
  refine ⟨hcall s filters, ?_, ?_, ?_, ?_⟩
  · rw [hcall]
    simp [Call.isSelectorOrResourceQuery]
  · simp [IEEE.Schedule, hcall]
  · simp [IEEE.Schedule, hcall]
  · simp [IEEE.Schedule, hcall, Call.isSelectorOrResourceQuery]

/-- `Schedule` on the `float64` embedding returns the transfer-leader operator
for `(res, newLeader)` if and only if `scheduleTransferLeader` returns them and
`shouldBalance` is true for the containers of the two peers; a false answer
gives no operator. -/
theorem float_Schedule_emits_iff (d : Deps)
    (l : balanceResourceLeaderScheduler) (rt : Runtime) (res : ResourceRuntime)
    (newLeader : Peer) :
    ((IEEE.Schedule d l rt).result
          = Except.ok (some (Operator.newTransferLeaderAggregationOp res newLeader)) ↔
        ((IEEE.scheduleTransferLeader rt l.selector []).1 = Except.ok (some res, some newLeader) ∧
          ∃ leaderPeer, res.leaderPeer = some leaderPeer ∧
            d.shouldBalance (rt.GetContainer leaderPeer.ContainerID)
              (rt.GetContainer newLeader.ContainerID) ResourceKind.LeaderKind = true)) ∧
      (∀ leaderPeer,
        (IEEE.scheduleTransferLeader rt l.selector []).1 = Except.ok (some res, some newLeader) →
        res.leaderPeer = some leaderPeer →
        d.shouldBalance (rt.GetContainer leaderPeer.ContainerID)
          (rt.GetContainer newLeader.ContainerID) ResourceKind.LeaderKind = false →
        (IEEE.Schedule d l rt).result = Except.ok none) := by
  unfold IEEE.Schedule
  rcases IEEE.scheduleTransferLeader rt l.selector [] with ⟨r, calls⟩
  rcases r with e | ⟨found, peer⟩
  · simp
  · cases found with
    | none => simp
    | some found =>
      simp only []
      cases hlp : found.leaderPeer with
      | none =>
        constructor
        · constructor
          · intro h; simp at h
          · rintro ⟨h, lp, hlp2, -⟩
            simp only [Except.ok.injEq, Prod.mk.injEq, Option.some.injEq] at h
            rw [← h.1, hlp] at hlp2
            simp at hlp2
        · intro lp h hlp2 _
          simp only [Except.ok.injEq, Prod.mk.injEq, Option.some.injEq] at h
          rw [← h.1, hlp] at hlp2
          simp at hlp2
      | some lp =>
        cases peer with
        | none => simp
        | some peer =>
          simp only [balanceResourceLeaderScheduler.ResourceKind]
          by_cases hb : d.shouldBalance (rt.GetContainer lp.ContainerID)
              (rt.GetContainer peer.ContainerID) ResourceKind.LeaderKind = true
          · simp only [hb, not_true_eq_false, if_false]
            constructor
            · constructor
              · intro h
                simp only [Except.ok.injEq, Option.some.injEq,
                  Operator.newTransferLeaderAggregationOp.injEq] at h
                obtain ⟨h1, h2⟩ := h
                subst h1 h2
                exact ⟨rfl, lp, hlp, hb⟩
              · rintro ⟨h, -⟩
                simp only [Except.ok.injEq, Prod.mk.injEq, Option.some.injEq] at h
                obtain ⟨h1, h2⟩ := h
                subst h1 h2
                rfl
            · intro lp2 h hlp2 hveto
              simp only [Except.ok.injEq, Prod.mk.injEq, Option.some.injEq] at h
              obtain ⟨h1, h2⟩ := h
              subst h1 h2
              rw [hlp] at hlp2
              cases hlp2
              rw [hb] at hveto
              cases hveto
          · simp only [hb, not_false_eq_true, if_true]
            constructor
            · constructor
              · intro h; simp at h
              · rintro ⟨h, lp2, hlp2, hb2⟩
                simp only [Except.ok.injEq, Prod.mk.injEq, Option.some.injEq] at h
                obtain ⟨h1, h2⟩ := h
                subst h1 h2
                rw [hlp] at hlp2
                cases hlp2
                exact absurd hb2 hb
            · intro _ _ _ _
              rfl

/-- `Schedule` on the `float64` embedding sets the limit to
`adjustBalanceLimit(rt, LeaderKind)` when it returns an operator and leaves it
unchanged otherwise; the selector is never changed. -/
theorem float_Schedule_limit (d : Deps) (l : balanceResourceLeaderScheduler)
    (rt : Runtime) :
    (IEEE.Schedule d l rt).scheduler.selector = l.selector ∧
      (IEEE.Schedule d l rt).scheduler.limit
        = (match (IEEE.Schedule d l rt).result with
          | Except.ok (some _) => d.adjustBalanceLimit rt ResourceKind.LeaderKind
          | _ => l.limit) := by
  unfold IEEE.Schedule
  rcases IEEE.scheduleTransferLeader rt l.selector [] with ⟨r, calls⟩
  rcases r with e | ⟨found, peer⟩
  · exact ⟨rfl, rfl⟩
  · cases found with
    | none => exact ⟨rfl, rfl⟩
    | some found =>
      simp only []
      cases found.leaderPeer with
      | none => exact ⟨rfl, rfl⟩
      | some lp =>
        cases peer with
        | none => exact ⟨rfl, rfl⟩
        | some peer =>
          simp only []
          split_ifs
          · exact ⟨rfl, rfl⟩
          · exact ⟨rfl, rfl⟩

/-- The two nil dereferences of `Schedule` on the `float64` embedding, at the
same inputs: a resource with no peer on the chosen container, and a resource
with no recorded leader peer. -/
theorem float_Schedule_nil_peer :
    (IEEE.Schedule sampleDeps (newBalanceResourceLeaderScheduler sampleDeps)
        inconsistentRuntime).result = Except.error GoPanic.nilDeref ∧
      (IEEE.Schedule sampleDeps (newBalanceResourceLeaderScheduler sampleDeps)
        leaderlessRuntime).result = Except.error GoPanic.nilDeref := by
  decide!
end Lion
